import Mathlib

/-!
Verification development for the storage-topology discovery and
partition-planning subsystem of `c4-utils` (`c4/utils/devices.py`,
`c4/utils/scsi/base.py`, `c4/utils/scsi/adaptec.py`, `c4/utils/scsi/lsi.py`).

The Python code is shallowly embedded: Python dictionaries become
insertion-ordered association lists, Python values that can be either
strings, integers or JSON data become the `JVal` type, and code that can
raise becomes `Except PyErr` valued (or threads its partially mutated
state next to an `Option PyErr`).  All definitions are executable.
-/

set_option autoImplicit false
set_option maxRecDepth 4000

/-- Python runtime values as they occur in the modelled code: strings,
(unbounded) integers, booleans, `None`, and JSON lists/objects produced by
`json.loads`. -/
inductive JVal where
  | str (s : String)
  | int (n : Int)
  | bool (b : Bool)
  | null
  | arr (xs : List JVal)
  | obj (fields : List (String × JVal))

/-- The Python exception classes raised by the modelled code. -/
inductive PyErr where
  | keyError (k : JVal)
  | valueError
  | attributeError
  | nameError
  | typeError
  | indexError

mutual

/-- Python `==` on `JVal`: numbers compare by value (`True == 1`), strings
by content, values of unrelated types compare unequal; lists compare
elementwise.  (Objects are compared field-list-wise here; in the modelled
code dictionaries are never compared, since they are unhashable and thus
never used as dictionary keys.) -/
def jvalEq : JVal → JVal → Bool
  | .int a, .int b => a == b
  | .int a, .bool b => a == (if b then (1 : Int) else 0)
  | .bool a, .int b => (if a then (1 : Int) else 0) == b
  | .bool a, .bool b => a == b
  | .str a, .str b => a == b
  | .null, .null => true
  | .arr xs, .arr ys => jvalEqList xs ys
  | .obj xs, .obj ys => jvalEqFields xs ys
  | _, _ => false

/-- Elementwise Python `==` on lists of values. -/
def jvalEqList : List JVal → List JVal → Bool
  | [], [] => true
  | x :: xs, y :: ys => jvalEq x y && jvalEqList xs ys
  | _, _ => false

/-- Fieldwise comparison of object field lists. -/
def jvalEqFields : List (String × JVal) → List (String × JVal) → Bool
  | [], [] => true
  | (k, v) :: xs, (k', v') :: ys => k == k' && jvalEq v v' && jvalEqFields xs ys
  | _, _ => false

end

/-- A value can be used as a Python dictionary key iff it is hashable;
lists and dictionaries are not. -/
def jvalHashable : JVal → Bool
  | .arr _ => false
  | .obj _ => false
  | _ => true

/-- Lookup in an insertion-ordered association list, with an explicit
equality test (Python `d[k]` read, `None` meaning `KeyError`). -/
def alGetBy {κ α : Type} (eq : κ → κ → Bool) : List (κ × α) → κ → Option α
  | [], _ => none
  | (k', v) :: rest, k => if eq k' k then some v else alGetBy eq rest k

/-- Update-or-append in an insertion-ordered association list
(Python `d[k] = v`): an existing key keeps its position, a new key is
appended at the end. -/
def alSetBy {κ α : Type} (eq : κ → κ → Bool) : List (κ × α) → κ → α → List (κ × α)
  | [], k, v => [(k, v)]
  | (k', v') :: rest, k, v =>
    if eq k' k then (k', v) :: rest else (k', v') :: alSetBy eq rest k v

/-- Key removal (Python `del d[k]`), removing every binding of the key;
on the unique-key lists that model dictionaries this is exactly the
removal of the one entry. -/
def alDelBy {κ α : Type} (eq : κ → κ → Bool) (l : List (κ × α)) (k : κ) : List (κ × α) :=
  l.filter (fun p => !(eq p.1 k))

/-- Dictionary lookup for decidably-equal keys (e.g. `String`). -/
def alGet {κ α : Type} [DecidableEq κ] : List (κ × α) → κ → Option α
  | [], _ => none
  | (k', v) :: rest, k => if k' = k then some v else alGet rest k

/-- Dictionary update for decidably-equal keys (Python `d[k] = v`: an
existing key keeps its position, a new key is appended). -/
def alSet {κ α : Type} [DecidableEq κ] : List (κ × α) → κ → α → List (κ × α)
  | [], k, v => [(k, v)]
  | (k', v') :: rest, k, v =>
    if k' = k then (k', v) :: rest else (k', v') :: alSet rest k v

/-- Dictionary deletion for decidably-equal keys (Python `del d[k]`),
removing every binding of the key; on the unique-key lists that model
dictionaries this is exactly the removal of the one entry. -/
def alDel {κ α : Type} [DecidableEq κ] (l : List (κ × α)) (k : κ) : List (κ × α) :=
  l.filter (fun p => !decide (p.1 = k))

/-- The whitespace characters stripped by Python's `str.strip()`. -/
def pyIsSpace (c : Char) : Bool :=
  c = ' ' || c = '\t' || c = '\n' || c = '\r' || c = '\x0b' || c = '\x0c'

/-- Strip the given characters from both ends of a string
(Python `s.strip(chars)`). -/
def pyStripChars (chars : String) (s : String) : String :=
  String.mk (((s.toList.dropWhile (fun c => chars.toList.contains c)).reverse.dropWhile
    (fun c => chars.toList.contains c)).reverse)

/-- Strip whitespace from both ends of a string (Python `s.strip()`). -/
def pyStrip (s : String) : String :=
  String.mk (((s.toList.dropWhile pyIsSpace).reverse.dropWhile pyIsSpace).reverse)

/-- Numeric value of a list of decimal digits. -/
def digitsToNat : List Char → Nat
  | cs => cs.foldl (fun a c => a * 10 + (c.toNat - 48)) 0

/-- Python `int(s)` on a string: optional surrounding whitespace, optional
sign, one or more decimal digits; anything else raises `ValueError`. -/
def pyInt (s : String) : Except PyErr Int :=
  let t := (pyStrip s).toList
  match t with
  | '-' :: ds =>
    if ds ≠ [] && ds.all Char.isDigit then .ok (-(digitsToNat ds : Int)) else .error .valueError
  | '+' :: ds =>
    if ds ≠ [] && ds.all Char.isDigit then .ok (digitsToNat ds : Int) else .error .valueError
  | ds =>
    if ds ≠ [] && ds.all Char.isDigit then .ok (digitsToNat ds : Int) else .error .valueError

/-- Split a character list at every occurrence of the separator
(Python `s.split(sep)` for a one-character separator: empty pieces are
kept, the empty string yields one empty piece). -/
def splitChar (sep : Char) : List Char → List (List Char)
  | [] => [[]]
  | c :: rest =>
    match splitChar sep rest with
    | [] => if c = sep then [[], []] else [[c]]
    | acc :: pieces => if c = sep then [] :: acc :: pieces else (c :: acc) :: pieces

/-- Python `s.split(sep)` for a one-character separator. -/
def pySplit (s : String) (sep : Char) : List String :=
  (splitChar sep s.toList).map String.mk

/-- Python `s.startswith(p)`. -/
def pyStartsWith (s p : String) : Bool :=
  p.toList.isPrefixOf s.toList

/-- Python `s.splitlines()` restricted to `\n` separators: split on `\n`
but without a trailing empty piece (so the empty string yields `[]`). -/
def pySplitlines (s : String) : List String :=
  let parts := pySplit s '\n'
  if parts.getLast? = some "" then parts.dropLast else parts

/-- `isOk` projection of an `Except` value. -/
def exceptIsOk {ε α : Type} : Except ε α → Bool
  | .ok _ => true
  | .error _ => false

/-- Enumeration of disk types (`DiskTypes` in `devices.py`). -/
inductive DiskTypes where
  | HDD
  | SSD
deriving DecidableEq

/-- A disk partition (`Partition` in `devices.py`): planned allocation of
disk capacity by percentage. -/
structure Partition where
  percent : Int
  filesystem : String
  partitionNum : Int
deriving DecidableEq

/-- A value stored in a `Disk`'s `partitions` dictionary: either a
`Partition` object (`setPartition`/`addPartition`) or the raw size string
stored by `getAvailableDisks` when `includePartitions` is set. -/
inductive PPart where
  | obj (p : Partition)
  | sizeStr (s : String)

/-- Whether a `partitions` value is an actual `Partition` object. -/
def PPart.isObj : PPart → Bool
  | .obj _ => true
  | .sizeStr _ => false

/-- A linux disk (`Disk` in `devices.py`).  `type` is an optional
`DiskTypes` member (Python allows a falsy `diskType`), `model` and
`location` are arbitrary Python values (the LSI reconciler stores the
logical device name into `model`, `getAvailableDisks` stores the lsblk
SIZE string into `location`). -/
structure Disk where
  name : String
  partitions : List (JVal × PPart)
  type : Option DiskTypes
  model : JVal
  location : JVal
  sn : Option JVal
  size : Int
  nsdList : List JVal

/-- `Disk.__init__(name, diskType, model, location=0, sn=None,
nsdList=None, size=None)`: `partitions` starts empty, `size` defaults to
`0` (`size if size else 0` with `size=None`), `nsdList` to `[]`. -/
def pyDiskInit (name : String) (diskType : Option DiskTypes) (model : JVal)
    (location : JVal) : Disk :=
  { name := name, partitions := [], type := diskType, model := model,
    location := location, sn := none, size := 0, nsdList := [] }

/-- `Disk.hasSpaceLeft`: `True` when there are no partitions, otherwise
`True` iff the partition percentages sum to less than 100.  Reading
`part.percent` off a non-`Partition` value raises `AttributeError`. -/
def hasSpaceLeft (d : Disk) : Except PyErr Bool :=
  if d.partitions.isEmpty then .ok true
  else do
    let totalUsed ← d.partitions.foldlM
      (fun acc kv =>
        match kv.2 with
        | .obj p => .ok (acc + p.percent)
        | .sizeStr _ => .error PyErr.attributeError) (0 : Int)
    if totalUsed < 100 then .ok true else .ok false

/-- The loop state of `getAvailableDisks`: the `disks` dictionary built so
far and the `currentDevice` variable. -/
structure GadState where
  disks : List (String × Disk)
  currentDevice : Option String

/-- Python `range(0, len(l), 2)` pairing of a quote-split line:
`(l[i], l[i+1])` for even `i` with `i+1 < len(l)` (a trailing unpaired
element is dropped). -/
def pairUp {α : Type} : List α → List (α × α)
  | k :: v :: rest => (k, v) :: pairUp rest
  | _ => []

/-- `devices.py:327-328`: split the stripped line on `"` and build the
`diskInfo` dictionary, stripping spaces and `=` from the keys.  The keys
are always strings. -/
def parseRow (rawLine : String) : List (JVal × String) :=
  let line := pySplit (pyStrip rawLine) '\"'
  (pairUp line).foldl
    (fun d kv => alSetBy jvalEq d (JVal.str (pyStripChars " =" kv.1)) kv.2) []

/-- `re.match(r'([a-z]+)', name)`: the maximal leading run of lowercase
ascii letters, `None` when the name does not start with one. -/
def lowerPrefixRun (s : String) : Option String :=
  let r := s.toList.takeWhile (fun c => 'a' ≤ c && c ≤ 'z')
  if r = [] then none else some (String.mk r)

/-- The `deviceType == "disk"` branch of `getAvailableDisks`
(`devices.py:334-349`).  `int(size)` can raise; a device over 10000000
bytes is recorded (virtual disks by name prefix, otherwise by the `ROTA`
flag — read, as in the source, via the integer keys `3` and `4` of the
string-keyed `diskInfo` dictionary) and becomes the current device. -/
def diskBranch (st : GadState) (info : List (JVal × String)) (name size : String) :
    Except PyErr GadState :=
  match pyInt size with
  | .error e => .error e
  | .ok sz =>
    if sz > 10000000 then
      if pyStartsWith name "xvd" || pyStartsWith name "vd" then
        .ok ⟨alSet st.disks name
          (pyDiskInit name (some DiskTypes.HDD) (JVal.str "virtual") (JVal.str size)),
          some name⟩
      else
        match alGetBy jvalEq info (JVal.int 3) with
        | none => .error (PyErr.keyError (JVal.int 3))
        | some rotaStr =>
          match pyInt rotaStr with
          | .error e => .error e
          | .ok rotational =>
            match alGetBy jvalEq info (JVal.int 4) with
            | none => .error (PyErr.keyError (JVal.int 4))
            | some model =>
              if rotational = 0 then
                .ok ⟨alSet st.disks name
                  (pyDiskInit name (some DiskTypes.SSD) (JVal.str model) (JVal.str size)),
                  some name⟩
              else
                .ok ⟨alSet st.disks name
                  (pyDiskInit name (some DiskTypes.HDD) (JVal.str model) (JVal.str size)),
                  some name⟩
    else .ok st

/-- The mountpoints that mark a disk as an OS disk. -/
def isOSMountpoint (mp : String) : Bool :=
  mp = "/" || mp = "/boot" || mp = "[SWAP]"

/-- The `includePartitions` stage of the `part` branch
(`devices.py:352-361`): the partition's size is recorded under the disk
named by the lowercase prefix of the partition name (a name without such
a prefix raises: the source's `except Exceptions` handler is itself a
`NameError`). -/
def partRecord (includePartitions : Bool) (st : GadState) (name size : String) :
    Except PyErr GadState :=
  if includePartitions then
    match lowerPrefixRun name with
    | none => .error PyErr.nameError
    | some deviceName =>
      match alGet st.disks deviceName with
      | none => .ok st
      | some disk =>
        if (alGetBy jvalEq disk.partitions (JVal.str name)).isSome then .ok st
        else
          let parts := alSetBy jvalEq disk.partitions (JVal.str name) (PPart.sizeStr size)
          .ok ⟨alSet st.disks deviceName { disk with partitions := parts }, st.currentDevice⟩
  else .ok st

/-- The mountpoint check of the `part` branch (`devices.py:363-375`): when
there is a current device and the row carries a non-empty mountpoint, an
OS mountpoint under `ignoreOSDisks` deletes the current device from the
result (and clears it), any other mountpoint is merely logged. -/
def partMountCheck (ignoreOSDisks : Bool) (st : GadState)
    (info : List (JVal × String)) : Except PyErr GadState :=
  match st.currentDevice with
  | none => .ok st
  | some currentDevice =>
    match alGetBy jvalEq info (JVal.str "MOUNTPOINT") with
    | none => .ok st
    | some mountpoint =>
      if mountpoint ≠ "" then
        if isOSMountpoint mountpoint && ignoreOSDisks then
          match alGet st.disks currentDevice with
          | none => .error (PyErr.keyError (JVal.str currentDevice))
          | some _ => .ok ⟨alDel st.disks currentDevice, none⟩
        else .ok st
      else .ok st

/-- Composition of the two stages of the `part` branch. -/
def partBranch (ignoreOSDisks includePartitions : Bool) (st : GadState)
    (info : List (JVal × String)) (name size : String) : Except PyErr GadState :=
  match partRecord includePartitions st name size with
  | .error e => .error e
  | .ok st1 => partMountCheck ignoreOSDisks st1 info

/-- One iteration of the `getAvailableDisks` line loop: parse the row
(failures to read NAME/TYPE/SIZE are caught and skip the line), then
dispatch on the device type. -/
def gadStep (ignoreOSDisks includePartitions : Bool) (st : GadState)
    (rawLine : String) : Except PyErr GadState :=
  let info := parseRow rawLine
  match alGetBy jvalEq info (JVal.str "NAME"),
        alGetBy jvalEq info (JVal.str "TYPE"),
        alGetBy jvalEq info (JVal.str "SIZE") with
  | some name, some deviceType, some size =>
    if deviceType = "disk" then diskBranch st info name size
    else if deviceType = "part" then
      partBranch ignoreOSDisks includePartitions st info name size
    else .ok st
  | _, _, _ => .ok st

/-- Process a list of lsblk lines from a given state. -/
def gadLines (ignoreOSDisks includePartitions : Bool) (st : GadState)
    (lines : List String) : Except PyErr GadState :=
  lines.foldlM (gadStep ignoreOSDisks includePartitions) st

/-- `getAvailableDisks(lsblkOutput, ignoreOSDisks=True,
includePartitions=False)` (`devices.py:309-380`): fold the line loop over
the split output and return the `disks` dictionary. -/
def getAvailableDisks (lsblkOutput : String) (ignoreOSDisks includePartitions : Bool) :
    Except PyErr (List (String × Disk)) := do
  let st ← gadLines ignoreOSDisks includePartitions ⟨[], none⟩ (pySplitlines lsblkOutput)
  .ok st.disks

/-- The two SCSI controller vendors (`adaptec.py` / `lsi.py` subclasses). -/
inductive Vendor where
  | adaptec
  | lsi
deriving DecidableEq

/-- A SCSI physical device (`PhysicalDeviceInfo` subclasses): a vendor tag
and the parsed `properties` dictionary. -/
structure PhysicalDevice where
  vendor : Vendor
  properties : List (String × JVal)

/-- `isSSD` of a physical device: Adaptec checks `properties["SSD"] ==
"Yes"`, LSI checks `properties["Med"] == "SSD"`; a missing property raises
`KeyError`. -/
def pdIsSSD (pd : PhysicalDevice) : Except PyErr Bool :=
  match pd.vendor with
  | .adaptec =>
    match alGet pd.properties "SSD" with
    | none => .error (PyErr.keyError (JVal.str "SSD"))
    | some v => .ok (jvalEq v (JVal.str "Yes"))
  | .lsi =>
    match alGet pd.properties "Med" with
    | none => .error (PyErr.keyError (JVal.str "Med"))
    | some v => .ok (jvalEq v (JVal.str "SSD"))

/-- A SCSI logical device (`LogicalDeviceInfo` subclasses): `properties`
and the associated `physicalDevices` dictionary, whose values are `None`
placeholders until the resolution pass replaces them with concrete
physical devices. -/
structure LogicalDevice where
  vendor : Vendor
  properties : List (String × JVal)
  physicalDevices : List (JVal × Option PhysicalDevice)

/-- One item of the list comprehension in `base.py:71`
(`physicalDevice.isSSD`): an unresolved `None` placeholder raises
`AttributeError`. -/
def pdEntrySSD (e : JVal × Option PhysicalDevice) : Except PyErr Bool :=
  match e.2 with
  | none => .error PyErr.attributeError
  | some pd => pdIsSSD pd

/-- `LogicalDeviceInfo.isSSD` (`base.py:68-73`): evaluate `isSSD` of every
associated physical device and return `True` iff `all` of them are SSD. -/
def ldIsSSD (ld : LogicalDevice) : Except PyErr Bool := do
  let bs ← ld.physicalDevices.mapM pdEntrySSD
  if bs.all id then .ok true else .ok false

/-- The `name` property of a logical device: Adaptec reads
`properties["Logical device name"]`, LSI reads `properties["Name"]`. -/
def ldName (ld : LogicalDevice) : Except PyErr JVal :=
  match ld.vendor with
  | .adaptec =>
    match alGet ld.properties "Logical device name" with
    | none => .error (PyErr.keyError (JVal.str "Logical device name"))
    | some v => .ok v
  | .lsi =>
    match alGet ld.properties "Name" with
    | none => .error (PyErr.keyError (JVal.str "Name"))
    | some v => .ok v

/-- SCSI controller information (`base.py` `ControllerInfo`). -/
structure ControllerInfo where
  controller : Int
  logicalDevices : List (JVal × LogicalDevice)
  physicalDevices : List (JVal × PhysicalDevice)

/-- `ControllerInfo.logicalDevicesbyNameMap`: the dictionary comprehension
`{device.name: device for device in self.logicalDevices.values()}`
(a `name` whose value is unhashable would raise `TypeError`). -/
def logicalDevicesbyNameMap (c : ControllerInfo) :
    Except PyErr (List (JVal × LogicalDevice)) :=
  c.logicalDevices.foldlM
    (fun acc kv => do
      let n ← ldName kv.2
      if jvalHashable n then .ok (alSetBy jvalEq acc n kv.2) else .error PyErr.typeError)
    []

/-- Adaptec controller devices information (`AdaptecDevicesInfo`),
reduced to its `controllers` dictionary. -/
structure AdaptecDevicesInfo where
  controllers : List (JVal × ControllerInfo)

/-- LSI controller devices information (`LSIDevicesInfo`),
reduced to its `controllers` dictionary. -/
structure LSIDevicesInfo where
  controllers : List (JVal × ControllerInfo)

/-- A Python value passed as the `devicesInfo` argument of the
reconciliation functions: the `isinstance` checks distinguish the two
vendor classes from anything else (e.g. the plain `{}` of the tests). -/
inductive VendorArg where
  | adaptec (info : AdaptecDevicesInfo)
  | lsi (info : LSIDevicesInfo)
  | other

/-- Whether a `devicesInfo` argument is an `AdaptecDevicesInfo`. -/
def VendorArg.isAdaptecInfo : VendorArg → Bool
  | .adaptec _ => true
  | _ => false

/-- Whether a `devicesInfo` argument is an `LSIDevicesInfo`. -/
def VendorArg.isLsiInfo : VendorArg → Bool
  | .lsi _ => true
  | _ => false

/-- `BlockDeviceMapping`: the `devices` dictionary mapping a SCSI bus path
to a linux device name. -/
structure BlockDeviceMapping where
  devices : List (String × String)

/-- A Python value passed as the `blockDeviceMapping` argument of
`addLSIControllerInformation`. -/
inductive MappingArg where
  | bdm (m : BlockDeviceMapping)
  | otherMapping

/-- Whether a `blockDeviceMapping` argument is a `BlockDeviceMapping`. -/
def MappingArg.isBdm : MappingArg → Bool
  | .bdm _ => true
  | _ => false

/-- Attempt the pattern `\d+:\d+:(\d+):\d+` at the start of a character
list: three digit runs separated by `:`, a fourth run after the last `:`;
the captured group is the third run. -/
def matchHBTL (cs : List Char) : Option Nat :=
  let p1 := cs.span Char.isDigit
  match p1.1, p1.2 with
  | _ :: _, ':' :: r1 =>
    let p2 := r1.span Char.isDigit
    match p2.1, p2.2 with
    | _ :: _, ':' :: r2 =>
      let p3 := r2.span Char.isDigit
      match p3.1, p3.2 with
      | d3 :: ds3, ':' :: r3 =>
        match r3.span Char.isDigit with
        | (_ :: _, _) => some (digitsToNat (d3 :: ds3))
        | _ => none
      | _, _ => none
    | _, _ => none
  | _, _ => none

/-- Leftmost-match scan for `matchHBTL` over all start positions
(`re.search("\d+:\d+:(\d+):\d+", s)`, capture group 1). -/
def searchHBTL : List Char → Option Nat
  | [] => none
  | c :: rest =>
    match matchHBTL (c :: rest) with
    | some t => some t
    | none => searchHBTL rest

/-- `BlockDeviceMapping.IDbyDeviceNameMap` (`devices.py:60-66`): for every
`(blockDevice, name)` item build `name → int(target)` using the regex
search; a bus path without a match raises (`AttributeError` on
`None.group`). -/
def IDbyDeviceNameMap (m : BlockDeviceMapping) : Except PyErr (List (String × Int)) :=
  m.devices.foldlM
    (fun acc kv =>
      match searchHBTL kv.1.toList with
      | none => .error PyErr.attributeError
      | some t => .ok (alSet acc kv.2 (Int.ofNat t)))
    []

/-- Python `s.startswith(p)` on an arbitrary value: only strings have
`startswith`, anything else raises `AttributeError`. -/
def jvalStartsWith (j : JVal) (p : String) : Except PyErr Bool :=
  match j with
  | .str s => .ok (pyStartsWith s p)
  | _ => .error PyErr.attributeError

/-- The `for name, disk in disks.items()` loop of
`addAdaptecControllerInformation` (`devices.py:267-273`), threading the
partially mutated dictionary next to the first raised exception: a disk
whose model starts with `"JBOD"` is looked up in the by-name map and its
`type` set to SSD when the logical device is SSD. -/
def adaptecLoop (byName : List (JVal × LogicalDevice)) :
    List (String × Disk) → List (String × Disk) × Option PyErr
  | [] => ([], none)
  | (name, disk) :: rest =>
    match jvalStartsWith disk.model "JBOD" with
    | .error e => ((name, disk) :: rest, some e)
    | .ok false =>
      let r := adaptecLoop byName rest
      ((name, disk) :: r.1, r.2)
    | .ok true =>
      match alGetBy jvalEq byName disk.model with
      | none => ((name, disk) :: rest, some (PyErr.keyError disk.model))
      | some logicalDevice =>
        match ldIsSSD logicalDevice with
        | .error e => ((name, disk) :: rest, some e)
        | .ok isSSD =>
          let disk' := if isSSD then { disk with type := some DiskTypes.SSD } else disk
          let r := adaptecLoop byName rest
          ((name, disk') :: r.1, r.2)

/-- `addAdaptecControllerInformation(disks, devicesInfo)`
(`devices.py:250-273`): reject a non-Adaptec `devicesInfo` with
`ValueError`, fetch `controllers[0].logicalDevicesbyNameMap`, then run the
per-disk loop.  The returned list is the (possibly partially) mutated
`disks` dictionary, the `Option PyErr` the exception, if any. -/
def addAdaptecControllerInformation (disks : List (String × Disk))
    (devicesInfo : VendorArg) : List (String × Disk) × Option PyErr :=
  match devicesInfo with
  | .adaptec info =>
    match alGetBy jvalEq info.controllers (JVal.int 0) with
    | none => (disks, some (PyErr.keyError (JVal.int 0)))
    | some c =>
      match logicalDevicesbyNameMap c with
      | .error e => (disks, some e)
      | .ok byName => adaptecLoop byName disks
  | _ => (disks, some PyErr.valueError)

/-- The `for name, disk in disks.items()` loop of
`addLSIControllerInformation` (`devices.py:297-307`): a disk whose model
starts with `"MR"` is joined through the block device id to its logical
device; the model is replaced by the logical device name, the type set to
SSD when the device is SSD, and the location set to the block device
id. -/
def lsiLoop (byName : List (String × Int)) (lds : List (JVal × LogicalDevice)) :
    List (String × Disk) → List (String × Disk) × Option PyErr
  | [] => ([], none)
  | (name, disk) :: rest =>
    match jvalStartsWith disk.model "MR" with
    | .error e => ((name, disk) :: rest, some e)
    | .ok false =>
      let r := lsiLoop byName lds rest
      ((name, disk) :: r.1, r.2)
    | .ok true =>
      match alGet byName name with
      | none => ((name, disk) :: rest, some (PyErr.keyError (JVal.str name)))
      | some blockDeviceId =>
        match alGetBy jvalEq lds (JVal.int blockDeviceId) with
        | none => ((name, disk) :: rest, some (PyErr.keyError (JVal.int blockDeviceId)))
        | some logicalDevice =>
          match ldName logicalDevice with
          | .error e => ((name, disk) :: rest, some e)
          | .ok deviceName =>
            let disk1 := { disk with model := deviceName }
            match ldIsSSD logicalDevice with
            | .error e => ((name, disk1) :: rest, some e)
            | .ok isSSD =>
              let disk2 := if isSSD then { disk1 with type := some DiskTypes.SSD } else disk1
              let disk3 := { disk2 with location := JVal.int blockDeviceId }
              let r := lsiLoop byName lds rest
              ((name, disk3) :: r.1, r.2)

/-- `addLSIControllerInformation(disks, devicesInfo, blockDeviceMapping)`
(`devices.py:275-307`): reject a non-LSI `devicesInfo`, then a
non-`BlockDeviceMapping` mapping, with `ValueError`; build the
id-by-device-name map and fetch `controllers[0].logicalDevices`; then run
the per-disk loop. -/
def addLSIControllerInformation (disks : List (String × Disk))
    (devicesInfo : VendorArg) (blockDeviceMapping : MappingArg) :
    List (String × Disk) × Option PyErr :=
  match devicesInfo with
  | .lsi info =>
    match blockDeviceMapping with
    | .bdm m =>
      match IDbyDeviceNameMap m with
      | .error e => (disks, some e)
      | .ok byName =>
        match alGetBy jvalEq info.controllers (JVal.int 0) with
        | none => (disks, some (PyErr.keyError (JVal.int 0)))
        | some c => lsiLoop byName c.logicalDevices disks
    | _ => (disks, some PyErr.valueError)
  | _ => (disks, some PyErr.valueError)

/-- Python 2 `<` on the dictionary keys sorted by `sorted(...)`: numbers
(including booleans) compare by value and sort before strings, `None`
sorts before everything, lists after numbers and before strings
(cross-type order follows the Python 2 type-name rule; only int keys occur
in the modelled code). -/
def pyValLt (a b : JVal) : Bool :=
  match a, b with
  | .null, .null => false
  | .null, _ => true
  | _, .null => false
  | .int x, .int y => x < y
  | .int x, .bool y => x < (if y then 1 else 0)
  | .bool x, .int y => (if x then (1 : Int) else 0) < y
  | .bool x, .bool y => (if x then (1 : Int) else 0) < (if y then 1 else 0)
  | .str x, .str y => x < y
  | .int _, _ => true
  | .bool _, _ => true
  | _, .int _ => false
  | _, .bool _ => false
  | .obj _, _ => true
  | _, .obj _ => false
  | .arr _, .str _ => true
  | .str _, .arr _ => false
  | .arr _, .arr _ => false

/-- Insert an entry into a list sorted by key (stable: the entry goes
after existing equal keys). -/
def sortedInsert (x : JVal × PPart) : List (JVal × PPart) → List (JVal × PPart)
  | [] => [x]
  | y :: ys => if pyValLt x.1 y.1 then x :: y :: ys else y :: sortedInsert x ys

/-- Python `sorted(d.items())` on a partitions dictionary: a stable sort
by key (with a dictionary's distinct keys the values never tie-break). -/
def sortedItems (l : List (JVal × PPart)) : List (JVal × PPart) :=
  l.foldr sortedInsert []

/-- The partition start/end computation of `partitionDevices`
(`devices.py:531-538`) from a given accumulated start: each partition's
end is its start plus its percentage, and the next partition starts at
that end.  Reading `percent` off a non-`Partition` value raises
`AttributeError`. -/
def partitionRangesFrom (start : Int) :
    List (JVal × PPart) → Except PyErr (List (JVal × Int × Int))
  | [] => .ok []
  | (k, PPart.obj p) :: rest => do
    let r ← partitionRangesFrom (start + p.percent) rest
    .ok ((k, start, start + p.percent) :: r)
  | (_, PPart.sizeStr _) :: _ => .error PyErr.attributeError

/-- The `(start, end)` percentage ranges that `partitionDevices`
(`devices.py:526-538`) passes to `parted mkpart` for one disk: iterate
`sorted(disk.partitions.items())` with `start = 0`, `end = start +
partition.percent`, `start = end`. -/
def partitionRanges (disk : Disk) : Except PyErr (List (JVal × Int × Int)) :=
  partitionRangesFrom 0 (sortedItems disk.partitions)

/-- Python `str(x)` as used by `"VD{n} Properties".format(...)`; only
integer device numbers occur in the modelled code. -/
def jvalFormat : JVal → String
  | .int n => toString n
  | .str s => s
  | .bool b => if b then "True" else "False"
  | .null => "None"
  | .arr _ => "<list>"
  | .obj _ => "<dict>"

/-- Python `x.get(k, default)`: only dictionaries have `.get`, anything
else raises `AttributeError`. -/
def jGetDefault (j : JVal) (k : String) (dflt : JVal) : Except PyErr JVal :=
  match j with
  | .obj fields => .ok ((alGet fields k).getD dflt)
  | _ => .error PyErr.attributeError

/-- Python `x[k]` for a string key: a dictionary lookup (`KeyError` when
missing); lists, strings and other values raise `TypeError`. -/
def jIndex (j : JVal) (k : String) : Except PyErr JVal :=
  match j with
  | .obj fields =>
    match alGet fields k with
    | some v => .ok v
    | none => .error (PyErr.keyError (JVal.str k))
  | _ => .error PyErr.typeError

/-- Python `for x in j`: lists yield their elements, strings their
one-character substrings, dictionaries their keys; other values are not
iterable (`TypeError`). -/
def pyIter (j : JVal) : Except PyErr (List JVal) :=
  match j with
  | .arr xs => .ok xs
  | .str s => .ok (s.toList.map (fun c => JVal.str (String.mk [c])))
  | .obj fields => .ok (fields.map (fun kv => JVal.str kv.1))
  | _ => .error PyErr.typeError

/-- Attempt the pattern `/c\d+/v(\d+)` at the start of a character list;
the captured group is the digit run after `v`. -/
def matchVD (cs : List Char) : Option Nat :=
  match cs with
  | '/' :: 'c' :: r1 =>
    let p1 := r1.span Char.isDigit
    match p1.1, p1.2 with
    | _ :: _, '/' :: 'v' :: r2 =>
      match r2.span Char.isDigit with
      | (d :: ds, _) => some (digitsToNat (d :: ds))
      | _ => none
    | _, _ => none
  | _ => none

/-- Leftmost-match scan for `matchVD`
(`re.search("/c\d+/v(\d+)", key)`, capture group 1). -/
def searchVD : List Char → Option Nat
  | [] => none
  | c :: rest =>
    match matchVD (c :: rest) with
    | some n => some n
    | none => searchVD rest

/-- `value[0]` of a logical-device JSON entry, as the `properties`
dictionary of `LSILogicalDeviceInfo(value[0])`.  A `value[0]` that is not
a dictionary would make the Python run fail slightly later, at the first
`properties.update`/`properties[...]` access; the embedding surfaces that
failure here (`AttributeError`), which is indistinguishable on all runs
that succeed. -/
def ldProps0 (value : JVal) : Except PyErr (List (String × JVal)) :=
  match value with
  | .arr (JVal.obj fields :: _) => .ok fields
  | .arr (_ :: _) => .error PyErr.attributeError
  | .arr [] => .error PyErr.indexError
  | .str s => if s = "" then .error PyErr.indexError else .error PyErr.attributeError
  | .obj _ => .error (PyErr.keyError (JVal.int 0))
  | _ => .error PyErr.typeError

/-- The dictionary comprehension of `lsi.py:72-74`: every `Response Data`
key matching `/c\d+/v\d+` contributes `int(<v-digits>) ↦
LSILogicalDeviceInfo(value[0])`. -/
def lsiLogicalDevicesOfInfos (infos : List (String × JVal)) :
    Except PyErr (List (JVal × LogicalDevice)) :=
  infos.foldlM
    (fun acc kv =>
      match searchVD kv.1.toList with
      | none => .ok acc
      | some n => do
        let props ← ldProps0 kv.2
        .ok (alSetBy jvalEq acc (JVal.int (Int.ofNat n))
          { vendor := Vendor.lsi, properties := props, physicalDevices := [] }))
    []

/-- The per-device body of the `for logicalDeviceNumber in
logicalDevices.keys()` loop (`lsi.py:76-85`): merge the
`VD<n> Properties` block into the properties (a non-dictionary block
fails, modelled as `TypeError`), then register a `None` placeholder for
the `DID` of every entry of `PDs for VD <n>`. -/
def vdUpdateDevice (infos : List (String × JVal)) (kv : JVal × LogicalDevice) :
    Except PyErr (JVal × LogicalDevice) := do
  let propKey := "VD" ++ jvalFormat kv.1 ++ " Properties"
  let upd ←
    match alGet infos propKey with
    | some v => Except.ok v
    | none => Except.error (PyErr.keyError (JVal.str propKey))
  let updFields ←
    match upd with
    | .obj fields => Except.ok fields
    | _ => Except.error PyErr.typeError
  let props := updFields.foldl (fun acc f => alSet acc f.1 f.2) kv.2.properties
  let pdKey := "PDs for VD " ++ jvalFormat kv.1
  let pdm ←
    match alGet infos pdKey with
    | some v => Except.ok v
    | none => Except.error (PyErr.keyError (JVal.str pdKey))
  let elems ← pyIter pdm
  let pds ← elems.foldlM
    (fun acc elem => do
      let did ← jIndex elem "DID"
      if jvalHashable did then
        Except.ok (alSetBy jvalEq acc did (none : Option PhysicalDevice))
      else Except.error PyErr.typeError)
    kv.2.physicalDevices
  .ok (kv.1, { kv.2 with properties := props, physicalDevices := pds })

/-- The logical-device mapping built for one successful controller
(`lsi.py:69-85`): read `Response Data`, run the key comprehension, then
the per-device update loop. -/
def controllerDevices (controller : JVal) : Except PyErr (List (JVal × LogicalDevice)) := do
  let deviceInfos ← jIndex controller "Response Data"
  let infos ←
    match deviceInfos with
    | .obj fields => Except.ok fields
    | _ => Except.error PyErr.attributeError
  let lds ← lsiLogicalDevicesOfInfos infos
  lds.mapM (vdUpdateDevice infos)

/-- `controller["Command Status"]["Status"] == "Success"` as an
exception-aware computation. -/
def statusOk (controller : JVal) : Except PyErr Bool := do
  let commandStatus ← jIndex controller "Command Status"
  let status ← jIndex commandStatus "Status"
  .ok (jvalEq status (JVal.str "Success"))

/-- `controller["Command Status"]["Controller"]`, the key under which a
successful controller's devices are aggregated. -/
def ctrlId (controller : JVal) : Except PyErr JVal := do
  let commandStatus ← jIndex controller "Command Status"
  jIndex commandStatus "Controller"

/-- Whether a controller record passes the `Command Status` check
(`False` also when the lookups themselves would raise). -/
def isSuccessController (controller : JVal) : Bool :=
  match statusOk controller with
  | .ok b => b
  | .error _ => false

/-- The `for controller in ...` loop of `parseLogicalDevicesString`
(`lsi.py:66-90`): parse every controller with a `Success` status and store
its devices into the `controllers` dictionary under its controller id;
non-successful controllers are only logged. -/
def processControllers :
    List JVal → List (JVal × List (JVal × LogicalDevice)) →
    Except PyErr (List (JVal × List (JVal × LogicalDevice)))
  | [], cd => .ok cd
  | c :: cs, cd =>
    match statusOk c with
    | .error e => .error e
    | .ok success =>
      if success then
        match controllerDevices c with
        | .error e => .error e
        | .ok lds =>
          match ctrlId c with
          | .error e => .error e
          | .ok cid =>
            if jvalHashable cid then processControllers cs (alSetBy jvalEq cd cid lds)
            else .error PyErr.typeError
      else processControllers cs cd

/-- `LSIDevicesInfo.parseLogicalDevicesString` (`lsi.py:55-95`) applied to
the `json.loads` of its input: iterate `.get("Controllers", [])`,
aggregate per-controller device mappings, and then — as the source does —
return the final value of the loop variable `logicalDevices` of the
`for logicalDevices in controllers.values()` aggregation loop, i.e. the
*last* controller's mapping (`NameError` when the variable was never
bound because no controller succeeded). -/
def parseLogicalDevicesString (j : JVal) : Except PyErr (List (JVal × LogicalDevice)) :=
  match jGetDefault j "Controllers" (JVal.arr []) with
  | .error e => .error e
  | .ok ctrls =>
    match pyIter ctrls with
    | .error e => .error e
    | .ok cs =>
      match processControllers cs [] with
      | .error e => .error e
      | .ok controllers =>
        match (controllers.map (fun kv => kv.2)).getLast? with
        | some logicalDevices => .ok logicalDevices
        | none => .error PyErr.nameError

/-- The controller list `parseLogicalDevicesString` iterates over:
`json.loads(...).get("Controllers", [])` as a Python iteration. -/
def lsiControllerList (j : JVal) : Except PyErr (List JVal) :=
  match jGetDefault j "Controllers" (JVal.arr []) with
  | .error e => .error e
  | .ok ctrls => pyIter ctrls

/-! ### Association list lemmas -/

theorem alGet_alSet {κ α : Type} [DecidableEq κ] (l : List (κ × α)) (k k' : κ) (v : α) :
    alGet (alSet l k v) k' = if k = k' then some v else alGet l k' := by
  induction l with
  | nil => by_cases h : k = k' <;> simp [alGet, alSet, h]
  | cons hd tl ih =>
    obtain ⟨a, b⟩ := hd
    by_cases h1 : a = k
    · subst h1
      by_cases h2 : a = k' <;> simp [alGet, alSet, h2]
    · by_cases h2 : a = k'
      · subst h2
        have hka : ¬k = a := fun hk => h1 hk.symm
        simp [alGet, alSet, h1, hka]
      · simp [alGet, alSet, h1, h2, ih]

theorem alGet_alDel {κ α : Type} [DecidableEq κ] (l : List (κ × α)) (k k' : κ) :
    alGet (alDel l k) k' = if k = k' then none else alGet l k' := by
  induction l with
  | nil => by_cases h : k = k' <;> simp [alGet, alDel, h]
  | cons hd tl ih =>
    obtain ⟨a, b⟩ := hd
    simp only [alDel, List.filter_cons] at ih ⊢
    by_cases h1 : a = k
    · subst h1
      by_cases h2 : a = k' <;> simp_all [alGet]
    · by_cases h2 : a = k'
      · subst h2
        have hkk : ¬k = a := fun hk => h1 hk.symm
        simp_all [alGet]
      · simp_all [alGet]

theorem alSetBy_append_of_none {κ α : Type} (eq : κ → κ → Bool) (l : List (κ × α))
    (k : κ) (v : α) (h : alGetBy eq l k = none) :
    alSetBy eq l k v = l ++ [(k, v)] := by
  induction l with
  | nil => simp [alSetBy]
  | cons hd tl ih =>
    simp only [alGetBy] at h
    by_cases h1 : eq hd.1 k = true
    · simp [h1] at h
    · simp only [Bool.not_eq_true] at h1
      simp only [h1, if_false] at h
      simp [alSetBy, h1, ih h]

theorem alGetBy_append {κ α : Type} (eq : κ → κ → Bool) (l1 l2 : List (κ × α)) (k : κ) :
    alGetBy eq (l1 ++ l2) k = (alGetBy eq l1 k).elim (alGetBy eq l2 k) some := by
  induction l1 with
  | nil => simp [alGetBy]
  | cons hd tl ih =>
    simp only [List.cons_append, alGetBy]
    by_cases h : eq hd.1 k = true <;> simp [h, ih]

/-! ### C1: `LogicalDeviceInfo.isSSD` -/

/-- A logical device with an empty set of associated physical devices. -/
def ldNoPhysical : LogicalDevice :=
  { vendor := Vendor.adaptec, properties := [], physicalDevices := [] }

/-- C1 counterexample: a logical device with zero associated physical
devices has `isSSD = True` (the `all([])` in `base.py:71` is vacuously
true), not `False` as the claim states. -/
theorem c1_isSSD_empty_counterexample : ldIsSSD ldNoPhysical = Except.ok true := rfl

/-- C1 (amended): when evaluating `isSSD` of the associated physical
devices succeeds with the list `bs`, `isSSD` of the logical device is
`True` iff all of them report SSD; in particular a logical device with
zero associated physical devices is vacuously SSD (`isSSD = True`). -/
theorem c1_isSSD_all_theorem (ld : LogicalDevice) (bs : List Bool)
    (h : ld.physicalDevices.mapM pdEntrySSD = Except.ok bs) :
    (ldIsSSD ld = Except.ok true ↔ bs.all id = true) ∧
    (ld.physicalDevices = [] → ldIsSSD ld = Except.ok true) := by
  have hrun : ldIsSSD ld = if bs.all id then Except.ok true else Except.ok false := by
    unfold ldIsSSD
    rw [h]
    rfl
  constructor
  · rw [hrun]
    cases hb : bs.all id <;> simp [hb]
  · intro he
    rw [he] at h
    simp only [List.mapM_nil] at h
    injection h with h2
    subst h2
    rw [hrun]
    rfl

/-- A physical device reporting SSD media. -/
def pdSSDYes : PhysicalDevice :=
  { vendor := Vendor.adaptec, properties := [("SSD", JVal.str "Yes")] }

/-- A logical device with exactly one associated SSD physical device. -/
def ldOneSSD : LogicalDevice :=
  { vendor := Vendor.adaptec, properties := [],
    physicalDevices := [(JVal.str "SN1", some pdSSDYes)] }

theorem c1_isSSD_all_witness :
    ldOneSSD.physicalDevices.mapM pdEntrySSD = Except.ok [true] ∧
    (ldIsSSD ldOneSSD = Except.ok true ↔ ([true].all id = true)) :=
  ⟨rfl, (c1_isSSD_all_theorem ldOneSSD [true] rfl).1⟩

/-! ### C9: `Disk.hasSpaceLeft` -/

/-- The `percent` of a partition value (`0` for the size strings, which
never occur under C9's hypothesis). -/
def pctOf : PPart → Int
  | .obj p => p.percent
  | .sizeStr _ => 0

/-- The sum of the partition percentages of a partitions dictionary. -/
def pctSum (l : List (JVal × PPart)) : Int :=
  l.foldl (fun a kv => a + pctOf kv.2) 0

theorem hasSpaceLeft_fold (l : List (JVal × PPart)) (a : Int)
    (h : ∀ kv ∈ l, kv.2.isObj = true) :
    (l.foldlM
      (fun acc kv =>
        match kv.2 with
        | .obj p => Except.ok (acc + p.percent)
        | .sizeStr _ => Except.error PyErr.attributeError) a) =
    Except.ok (l.foldl (fun acc kv => acc + pctOf kv.2) a) := by
  induction l generalizing a with
  | nil => rfl
  | cons hd tl ih =>
    obtain ⟨k, pp⟩ := hd
    match pp with
    | .obj p =>
      simp only [List.foldlM_cons, List.foldl_cons]
      exact ih (a + p.percent) (fun kv hm => h kv (List.mem_cons_of_mem _ hm))
    | .sizeStr s =>
      exact absurd (h (k, .sizeStr s) (by simp)) (by simp [PPart.isObj])

/-- C9: for every disk whose partitions dictionary holds `Partition`
objects, `hasSpaceLeft` returns `True` on zero partitions, `True` when the
percentages sum below 100, and `False` once they sum to 100 or more. -/
theorem c9_hasSpaceLeft_theorem (d : Disk)
    (h : ∀ kv ∈ d.partitions, kv.2.isObj = true) :
    (d.partitions = [] → hasSpaceLeft d = Except.ok true) ∧
    (pctSum d.partitions < 100 → hasSpaceLeft d = Except.ok true) ∧
    (100 ≤ pctSum d.partitions → hasSpaceLeft d = Except.ok false) := by
  have hrun : d.partitions.isEmpty = false →
      hasSpaceLeft d =
        (if pctSum d.partitions < 100 then Except.ok true else Except.ok false) := by
    intro hne
    unfold hasSpaceLeft
    rw [hne]
    simp only [Bool.false_eq_true, if_false]
    rw [hasSpaceLeft_fold _ 0 h]
    rfl
  refine ⟨fun he => by simp [hasSpaceLeft, he], ?_, ?_⟩
  · intro hlt
    cases hne : d.partitions.isEmpty with
    | true => simp [hasSpaceLeft, hne]
    | false => rw [hrun hne, if_pos hlt]
  · intro hge
    cases hne : d.partitions.isEmpty with
    | true =>
      rw [List.isEmpty_iff] at hne
      rw [hne] at hge
      exact absurd hge (by simp [pctSum])
    | false => rw [hrun hne, if_neg (not_lt.mpr hge)]

/-- A disk with three partitions of 30%, 30% and 40%. -/
def diskFull : Disk :=
  { name := "sda", type := some DiskTypes.HDD, model := JVal.str "m",
    location := JVal.int 0, sn := none, size := 0, nsdList := [],
    partitions :=
      [(JVal.int 1, PPart.obj { percent := 30, filesystem := "gpfs", partitionNum := 0 }),
       (JVal.int 2, PPart.obj { percent := 30, filesystem := "gpfs", partitionNum := 0 }),
       (JVal.int 3, PPart.obj { percent := 40, filesystem := "gpfs", partitionNum := 0 })] }

/-- A disk with a single 55% partition. -/
def diskHalf : Disk :=
  { name := "sdb", type := some DiskTypes.HDD, model := JVal.str "m",
    location := JVal.int 0, sn := none, size := 0, nsdList := [],
    partitions :=
      [(JVal.int 1, PPart.obj { percent := 55, filesystem := "gpfs", partitionNum := 0 })] }

/-- A disk with no partitions. -/
def diskBare : Disk :=
  { name := "sdc", type := some DiskTypes.HDD, model := JVal.str "m",
    location := JVal.int 0, sn := none, size := 0, nsdList := [], partitions := [] }

theorem c9_hasSpaceLeft_witness :
    hasSpaceLeft diskBare = Except.ok true ∧
    hasSpaceLeft diskHalf = Except.ok true ∧
    hasSpaceLeft diskFull = Except.ok false :=
  ⟨(c9_hasSpaceLeft_theorem diskBare (by decide)).1 rfl,
   (c9_hasSpaceLeft_theorem diskHalf (by decide)).2.1 (by decide),
   (c9_hasSpaceLeft_theorem diskFull (by decide)).2.2 (by decide)⟩

/-! ### C7: partition start/end computation -/

theorem pctSum_foldl_shift (l : List (JVal × PPart)) (a : Int) :
    l.foldl (fun x kv => x + pctOf kv.2) a = a + pctSum l := by
  induction l generalizing a with
  | nil => simp [pctSum]
  | cons hd tl ih =>
    simp only [List.foldl_cons, pctSum] at ih ⊢
    rw [ih (a + pctOf hd.2), ih (0 + pctOf hd.2)]
    ring

theorem pctSum_cons (hd : JVal × PPart) (tl : List (JVal × PPart)) :
    pctSum (hd :: tl) = pctOf hd.2 + pctSum tl := by
  rw [show pctSum (hd :: tl) =
      tl.foldl (fun x kv => x + pctOf kv.2) (0 + pctOf hd.2) from rfl]
  rw [pctSum_foldl_shift]
  ring

theorem sortedInsert_perm (x : JVal × PPart) (l : List (JVal × PPart)) :
    List.Perm (sortedInsert x l) (x :: l) := by
  induction l with
  | nil => exact List.Perm.refl _
  | cons y ys ih =>
    simp only [sortedInsert]
    by_cases hc : pyValLt x.1 y.1 = true
    · rw [if_pos hc]
    · rw [if_neg hc]
      exact (List.Perm.cons y ih).trans (List.Perm.swap x y ys)

theorem sortedItems_perm (l : List (JVal × PPart)) : List.Perm (sortedItems l) l := by
  unfold sortedItems
  induction l with
  | nil => exact List.Perm.refl _
  | cons hd tl ih =>
    exact (sortedInsert_perm hd (tl.foldr sortedInsert [])).trans (List.Perm.cons hd ih)

theorem partitionRangesFrom_spec (l : List (JVal × PPart)) (start : Int)
    (h : ∀ kv ∈ l, kv.2.isObj = true) :
    ∃ L, partitionRangesFrom start l = Except.ok L ∧
      ∀ i : Nat, L[i]? = (l[i]?).map
        (fun kv => (kv.1, start + pctSum (l.take i),
          start + pctSum (l.take i) + pctOf kv.2)) := by
  induction l generalizing start with
  | nil => exact ⟨[], rfl, fun i => by simp⟩
  | cons hd tl ih =>
    obtain ⟨k, pp⟩ := hd
    match pp with
    | .sizeStr s => exact absurd (h (k, .sizeStr s) (by simp)) (by simp [PPart.isObj])
    | .obj p =>
      obtain ⟨Ltl, hrun, hspec⟩ :=
        ih (start + p.percent) (fun kv hm => h kv (List.mem_cons_of_mem _ hm))
      refine ⟨(k, start, start + p.percent) :: Ltl, ?_, ?_⟩
      · simp only [partitionRangesFrom, hrun]
        rfl
      · intro i
        cases i with
        | zero =>
          have h0 : pctSum ([] : List (JVal × PPart)) = 0 := rfl
          simp [pctOf, h0]
        | succ j =>
          simp only [List.getElem?_cons_succ, hspec j, List.take_succ_cons]
          cases hj : tl[j]? with
          | none => rfl
          | some kv =>
            simp only [Option.map_some', Option.some.injEq, Prod.mk.injEq]
            rw [pctSum_cons]
            have hpo : pctOf (k, PPart.obj p).2 = p.percent := rfl
            rw [hpo]
            refine ⟨trivial, by ring, by ring⟩

/-- C7: for every disk whose partitions hold `Partition` objects, the
start of the i-th partition (in sorted key order) is the sum of the
percentages of the partitions before it and its end is that start plus
its own percentage; in particular the percentages [30, 30, 40] of
`diskFull` yield the ranges [(0,30),(30,60),(60,100)]. -/
theorem c7_partitionRanges_theorem :
    (∀ d : Disk, (∀ kv ∈ d.partitions, kv.2.isObj = true) →
      ∃ L, partitionRanges d = Except.ok L ∧
        ∀ i : Nat, L[i]? = ((sortedItems d.partitions)[i]?).map
          (fun kv => (kv.1, pctSum ((sortedItems d.partitions).take i),
            pctSum ((sortedItems d.partitions).take i) + pctOf kv.2))) ∧
    partitionRanges diskFull =
      Except.ok [(JVal.int 1, 0, 30), (JVal.int 2, 30, 60), (JVal.int 3, 60, 100)] := by
  constructor
  · intro d h
    have hsorted : ∀ kv ∈ sortedItems d.partitions, kv.2.isObj = true := by
      intro kv hm
      exact h kv ((sortedItems_perm d.partitions).mem_iff.mp hm)
    obtain ⟨L, hrun, hspec⟩ := partitionRangesFrom_spec (sortedItems d.partitions) 0 hsorted
    refine ⟨L, hrun, fun i => ?_⟩
    rw [hspec i]
    cases hj : (sortedItems d.partitions)[i]? with
    | none => simp
    | some kv => simp
  · rfl

/-- A disk with a single 55% partition has the single range (0,55). -/
theorem c7_partitionRanges_witness :
    (∀ kv ∈ diskHalf.partitions, kv.2.isObj = true) ∧
    (∃ L, partitionRanges diskHalf = Except.ok L ∧
      ∀ i : Nat, L[i]? = ((sortedItems diskHalf.partitions)[i]?).map
        (fun kv => (kv.1, pctSum ((sortedItems diskHalf.partitions).take i),
          pctSum ((sortedItems diskHalf.partitions).take i) + pctOf kv.2))) :=
  ⟨by decide, c7_partitionRanges_theorem.1 diskHalf (by decide)⟩

/-! ### C5: idempotence of the Adaptec reconciliation -/

theorem adaptecLoop_idem (byName : List (JVal × LogicalDevice))
    (l : List (String × Disk)) :
    (adaptecLoop byName (adaptecLoop byName l).1).1 = (adaptecLoop byName l).1 := by
  induction l with
  | nil => rfl
  | cons hd tl ih =>
    obtain ⟨name, disk⟩ := hd
    cases hsw : jvalStartsWith disk.model "JBOD" with
    | error e => simp [adaptecLoop, hsw]
    | ok b =>
      cases b with
      | false => simp [adaptecLoop, hsw, ih]
      | true =>
        cases hlk : alGetBy jvalEq byName disk.model with
        | none => simp [adaptecLoop, hsw, hlk]
        | some ld =>
          cases hssd : ldIsSSD ld with
          | error e => simp [adaptecLoop, hsw, hlk, hssd]
          | ok issd =>
            cases issd with
            | false => simp [adaptecLoop, hsw, hlk, hssd, ih]
            | true => simp [adaptecLoop, hsw, hlk, hssd, ih]

/-- C5: applying `addAdaptecControllerInformation` twice with the same
inputs leaves the disks dictionary — in particular every disk's
`(type, model)` pair — exactly as after applying it once, for every disks
mapping and every Adaptec devices info (also when a run stops in an
exception: the partially mutated dictionary is already a fixed point). -/
theorem c5_addAdaptec_idempotent_theorem :
    ∀ (disks : List (String × Disk)) (info : AdaptecDevicesInfo),
      (addAdaptecControllerInformation
        (addAdaptecControllerInformation disks (VendorArg.adaptec info)).1
        (VendorArg.adaptec info)).1 =
      (addAdaptecControllerInformation disks (VendorArg.adaptec info)).1 := by
  have heq : ∀ (disks : List (String × Disk)) (info : AdaptecDevicesInfo),
      addAdaptecControllerInformation disks (VendorArg.adaptec info) =
        match alGetBy jvalEq info.controllers (JVal.int 0) with
        | none => (disks, some (PyErr.keyError (JVal.int 0)))
        | some c =>
          match logicalDevicesbyNameMap c with
          | .error e => (disks, some e)
          | .ok byName => adaptecLoop byName disks :=
    fun _ _ => rfl
  intro disks info
  simp only [heq]
  cases hc : alGetBy jvalEq info.controllers (JVal.int 0) with
  | none => rfl
  | some c =>
    cases hb : logicalDevicesbyNameMap c with
    | error e => simp only [hb]
    | ok byName =>
      simp only [hb]
      exact adaptecLoop_idem byName disks

/-! ### C6: wrong-vendor rejection by the reconciliation functions -/

/-- C6: both reconciliation functions reject a `devicesInfo` of the wrong
vendor class, and `addLSIControllerInformation` also a mapping that is not
a `BlockDeviceMapping`, with a `ValueError` contract failure, returning
the disks dictionary unchanged (no disk mutated). -/
theorem c6_wrong_vendor_theorem :
    (∀ (disks : List (String × Disk)) (v : VendorArg),
      v.isAdaptecInfo = false →
      addAdaptecControllerInformation disks v = (disks, some PyErr.valueError)) ∧
    (∀ (disks : List (String × Disk)) (v : VendorArg) (m : MappingArg),
      v.isLsiInfo = false →
      addLSIControllerInformation disks v m = (disks, some PyErr.valueError)) ∧
    (∀ (disks : List (String × Disk)) (info : LSIDevicesInfo) (m : MappingArg),
      m.isBdm = false →
      addLSIControllerInformation disks (VendorArg.lsi info) m =
        (disks, some PyErr.valueError)) := by
  refine ⟨?_, ?_, ?_⟩
  · intro disks v h
    cases v with
    | adaptec i => exact absurd h (by simp [VendorArg.isAdaptecInfo])
    | lsi i => rfl
    | other => rfl
  · intro disks v m h
    cases v with
    | adaptec i => rfl
    | lsi i => exact absurd h (by simp [VendorArg.isLsiInfo])
    | other => rfl
  · intro disks info m h
    cases m with
    | bdm b => exact absurd h (by simp [MappingArg.isBdm])
    | otherMapping => rfl

theorem c6_wrong_vendor_witness :
    addAdaptecControllerInformation [] VendorArg.other = ([], some PyErr.valueError) ∧
    addLSIControllerInformation [] VendorArg.other MappingArg.otherMapping =
      ([], some PyErr.valueError) ∧
    addLSIControllerInformation []
      (VendorArg.lsi { controllers := [] }) MappingArg.otherMapping =
      ([], some PyErr.valueError) :=
  ⟨c6_wrong_vendor_theorem.1 [] VendorArg.other rfl,
   c6_wrong_vendor_theorem.2.1 [] VendorArg.other MappingArg.otherMapping rfl,
   c6_wrong_vendor_theorem.2.2 [] { controllers := [] } MappingArg.otherMapping rfl⟩

/-! ### C2: the 500MB/20GB end-to-end scenario -/

/-- The lsblk row of the 500MB disk `sdx`. -/
def c2RowSdx : String :=
  "NAME=\"sdx\" TYPE=\"disk\" SIZE=\"524288000\" ROTA=\"1\" MOUNTPOINT=\"\" FSTYPE=\"\" MODEL=\"\""

/-- The lsblk row of the 20GB SEAGATE disk `sdy`. -/
def c2RowSdy : String :=
  "NAME=\"sdy\" TYPE=\"disk\" SIZE=\"21474836480\" ROTA=\"1\" MOUNTPOINT=\"\" FSTYPE=\"\" MODEL=\"SEAGATE\""

/-- The C2 lsblk dump: one 500MB disk `sdx` and one 20GB rotational
SEAGATE disk `sdy`. -/
def c2LsblkDump : String := c2RowSdx ++ "\n" ++ c2RowSdy

/-- C2 counterexample: on the claimed dump `getAvailableDisks` does not
return at all — it raises — so it does not return the claimed
`sdy`-only mapping. -/
theorem c2_getAvailableDisks_counterexample :
    exceptIsOk (getAvailableDisks c2LsblkDump true false) = false := rfl

/-- C2 (amended): on the claimed dump `getAvailableDisks` raises a
`KeyError`-class failure while processing the first disk row, because the
rotational flag is read as `diskInfo[3]` — an integer key — from the
string-keyed row dictionary (`devices.py:342`); no mapping is returned. -/
theorem c2_getAvailableDisks_theorem :
    getAvailableDisks c2LsblkDump true false =
      Except.error (PyErr.keyError (JVal.int 3)) := rfl

/-! ### C8 and C10: provenance of the entries of `getAvailableDisks` -/

/-- The NAME/TYPE/SIZE triple of an lsblk row, when all three parse. -/
def rowNTS (L : String) : Option (String × String × String) :=
  match alGetBy jvalEq (parseRow L) (JVal.str "NAME"),
        alGetBy jvalEq (parseRow L) (JVal.str "TYPE"),
        alGetBy jvalEq (parseRow L) (JVal.str "SIZE") with
  | some n, some t, some s => some (n, t, s)
  | _, _, _ => none

/-- The SIZE string and its integer value when the row is a disk-typed row
named `n` that passes the 10000000-byte minimum. -/
def rowQual (L : String) (n : String) : Option (String × Int) :=
  match rowNTS L with
  | some (name, dtype, size) =>
    if name = n ∧ dtype = "disk" then
      match pyInt size with
      | .ok sz => if sz > 10000000 then some (size, sz) else none
      | .error _ => none
    else none
  | none => none

theorem alGet_alSet_cases {κ α : Type} [DecidableEq κ] (l : List (κ × α)) (k n : κ)
    (v w : α) (hd : alGet (alSet l k v) n = some w) :
    (k = n ∧ w = v) ∨ (¬k = n ∧ alGet l n = some w) := by
  rw [alGet_alSet] at hd
  by_cases h : k = n
  · rw [if_pos h] at hd
    exact Or.inl ⟨h, (Option.some.injEq _ _ ▸ hd).symm⟩
  · rw [if_neg h] at hd
    exact Or.inr ⟨h, hd⟩

theorem rowQual_of_parts (L n name dtype size : String) (sz : Int)
    (hN : alGetBy jvalEq (parseRow L) (JVal.str "NAME") = some name)
    (hT : alGetBy jvalEq (parseRow L) (JVal.str "TYPE") = some dtype)
    (hS : alGetBy jvalEq (parseRow L) (JVal.str "SIZE") = some size)
    (hname : name = n) (hdisk : dtype = "disk")
    (hsz : pyInt size = Except.ok sz) (hbig : sz > 10000000) :
    rowQual L n = some (size, sz) := by
  unfold rowQual rowNTS
  rw [hN, hT, hS]
  simp only [if_pos (And.intro hname hdisk), hsz, if_pos hbig]

theorem diskBranch_provenance (st : GadState) (info : List (JVal × String))
    (name size : String) (st' : GadState)
    (h : diskBranch st info name size = Except.ok st') (n : String) (d : Disk)
    (hd : alGet st'.disks n = some d) :
    alGet st.disks n = some d ∨
    (name = n ∧ ∃ sz, pyInt size = Except.ok sz ∧ sz > 10000000 ∧
      d.size = 0 ∧ d.location = JVal.str size) := by
  unfold diskBranch at h
  cases hsz : pyInt size with
  | error e =>
    simp only [hsz] at h
    exact Except.noConfusion h
  | ok sz =>
    simp only [hsz] at h
    by_cases hbig : sz > 10000000
    · rw [if_pos hbig] at h
      by_cases hvirt : (pyStartsWith name "xvd" || pyStartsWith name "vd") = true
      · rw [if_pos hvirt] at h
        injection h with h2
        subst h2
        rcases alGet_alSet_cases _ _ _ _ _ hd with ⟨hkn, hw⟩ | ⟨_, hold⟩
        · exact Or.inr ⟨hkn, sz, rfl, hbig, by rw [hw]; rfl, by rw [hw]; rfl⟩
        · exact Or.inl hold
      · rw [if_neg hvirt] at h
        cases hrota : alGetBy jvalEq info (JVal.int 3) with
        | none =>
          simp only [hrota] at h
          exact Except.noConfusion h
        | some rotaStr =>
          simp only [hrota] at h
          cases hri : pyInt rotaStr with
          | error e =>
            simp only [hri] at h
            exact Except.noConfusion h
          | ok rotational =>
            simp only [hri] at h
            cases hmodel : alGetBy jvalEq info (JVal.int 4) with
            | none =>
              simp only [hmodel] at h
              exact Except.noConfusion h
            | some model =>
              simp only [hmodel] at h
              by_cases hr0 : rotational = 0
              · rw [if_pos hr0] at h
                injection h with h2
                subst h2
                rcases alGet_alSet_cases _ _ _ _ _ hd with ⟨hkn, hw⟩ | ⟨_, hold⟩
                · exact Or.inr ⟨hkn, sz, rfl, hbig, by rw [hw]; rfl, by rw [hw]; rfl⟩
                · exact Or.inl hold
              · rw [if_neg hr0] at h
                injection h with h2
                subst h2
                rcases alGet_alSet_cases _ _ _ _ _ hd with ⟨hkn, hw⟩ | ⟨_, hold⟩
                · exact Or.inr ⟨hkn, sz, rfl, hbig, by rw [hw]; rfl, by rw [hw]; rfl⟩
                · exact Or.inl hold
    · rw [if_neg hbig] at h
      injection h with h2
      subst h2
      exact Or.inl hd

theorem partRecord_provenance (ip : Bool) (st : GadState) (name size : String)
    (st' : GadState) (h : partRecord ip st name size = Except.ok st')
    (n : String) (d : Disk) (hd : alGet st'.disks n = some d) :
    ∃ d0, alGet st.disks n = some d0 ∧ d0.size = d.size ∧ d0.location = d.location ∧
      st'.currentDevice = st.currentDevice := by
  unfold partRecord at h
  cases hip : ip with
  | false =>
    simp only [hip, Bool.false_eq_true, if_false] at h
    injection h with h2
    subst h2
    exact ⟨d, hd, rfl, rfl, rfl⟩
  | true =>
    simp only [hip, if_true] at h
    cases hlp : lowerPrefixRun name with
    | none =>
      simp only [hlp] at h
      exact Except.noConfusion h
    | some deviceName =>
      simp only [hlp] at h
      cases hlk : alGet st.disks deviceName with
      | none =>
        simp only [hlk] at h
        injection h with h2
        subst h2
        exact ⟨d, hd, rfl, rfl, rfl⟩
      | some disk =>
        simp only [hlk] at h
        by_cases hin : (alGetBy jvalEq disk.partitions (JVal.str name)).isSome = true
        · rw [if_pos hin] at h
          injection h with h2
          subst h2
          exact ⟨d, hd, rfl, rfl, rfl⟩
        · rw [if_neg hin] at h
          injection h with h2
          subst h2
          rcases alGet_alSet_cases _ _ _ _ _ hd with ⟨hkn, hw⟩ | ⟨_, hold⟩
          · subst hkn
            exact ⟨disk, hlk, by rw [hw], by rw [hw], rfl⟩
          · exact ⟨d, hold, rfl, rfl, rfl⟩

theorem partMountCheck_provenance (ig : Bool) (st : GadState)
    (info : List (JVal × String)) (st' : GadState)
    (h : partMountCheck ig st info = Except.ok st')
    (n : String) (d : Disk) (hd : alGet st'.disks n = some d) :
    alGet st.disks n = some d := by
  unfold partMountCheck at h
  cases hcd : st.currentDevice with
  | none =>
    simp only [hcd] at h
    injection h with h2
    subst h2
    exact hd
  | some currentDevice =>
    simp only [hcd] at h
    cases hmp : alGetBy jvalEq info (JVal.str "MOUNTPOINT") with
    | none =>
      simp only [hmp] at h
      injection h with h2
      subst h2
      exact hd
    | some mountpoint =>
      simp only [hmp] at h
      by_cases hne : mountpoint ≠ ""
      · rw [if_pos hne] at h
        by_cases hos : (isOSMountpoint mountpoint && ig) = true
        · rw [if_pos hos] at h
          cases hcur : alGet st.disks currentDevice with
          | none =>
            simp only [hcur] at h
            exact Except.noConfusion h
          | some cd =>
            simp only [hcur] at h
            injection h with h2
            subst h2
            rw [alGet_alDel] at hd
            by_cases hcn : currentDevice = n
            · rw [if_pos hcn] at hd
              exact Option.noConfusion hd
            · rw [if_neg hcn] at hd
              exact hd
        · rw [if_neg hos] at h
          injection h with h2
          subst h2
          exact hd
      · rw [if_neg hne] at h
        injection h with h2
        subst h2
        exact hd

theorem gadStep_provenance (ig ip : Bool) (st : GadState) (L : String)
    (st' : GadState) (h : gadStep ig ip st L = Except.ok st')
    (n : String) (d : Disk) (hd : alGet st'.disks n = some d) :
    (∃ d0, alGet st.disks n = some d0 ∧ d0.size = d.size ∧ d0.location = d.location) ∨
    (∃ s sz, rowQual L n = some (s, sz) ∧ d.size = 0 ∧ d.location = JVal.str s) := by
  unfold gadStep at h
  cases hN : alGetBy jvalEq (parseRow L) (JVal.str "NAME") with
  | none =>
    simp only [hN] at h
    injection h with h2
    subst h2
    exact Or.inl ⟨d, hd, rfl, rfl⟩
  | some name =>
    cases hT : alGetBy jvalEq (parseRow L) (JVal.str "TYPE") with
    | none =>
      simp only [hN, hT] at h
      injection h with h2
      subst h2
      exact Or.inl ⟨d, hd, rfl, rfl⟩
    | some dtype =>
      cases hS : alGetBy jvalEq (parseRow L) (JVal.str "SIZE") with
      | none =>
        simp only [hN, hT, hS] at h
        injection h with h2
        subst h2
        exact Or.inl ⟨d, hd, rfl, rfl⟩
      | some size =>
        simp only [hN, hT, hS] at h
        by_cases hdisk : dtype = "disk"
        · rw [if_pos hdisk] at h
          rcases diskBranch_provenance st (parseRow L) name size st' h n d hd with
            hold | ⟨hname, sz, hsz, hbig, hs0, hloc⟩
          · exact Or.inl ⟨d, hold, rfl, rfl⟩
          · exact Or.inr ⟨size, sz,
              rowQual_of_parts L n name dtype size sz hN hT hS hname hdisk hsz hbig,
              hs0, hloc⟩
        · rw [if_neg hdisk] at h
          by_cases hpart : dtype = "part"
          · rw [if_pos hpart] at h
            unfold partBranch at h
            cases hpr : partRecord ip st name size with
            | error e =>
              rw [hpr] at h
              exact Except.noConfusion h
            | ok st1 =>
              rw [hpr] at h
              have h1 := partMountCheck_provenance ig st1 (parseRow L) st' h n d hd
              obtain ⟨d0, hget, hsz0, hloc0, _⟩ :=
                partRecord_provenance ip st name size st1 hpr n d h1
              exact Or.inl ⟨d0, hget, hsz0, hloc0⟩
          · rw [if_neg hpart] at h
            injection h with h2
            subst h2
            exact Or.inl ⟨d, hd, rfl, rfl⟩

theorem gadLines_provenance (ig ip : Bool) (lines : List String) (st st' : GadState)
    (h : gadLines ig ip st lines = Except.ok st')
    (n : String) (d : Disk) (hd : alGet st'.disks n = some d) :
    (∃ d0, alGet st.disks n = some d0 ∧ d0.size = d.size ∧ d0.location = d.location) ∨
    (∃ L ∈ lines, ∃ s sz, rowQual L n = some (s, sz) ∧
      d.size = 0 ∧ d.location = JVal.str s) := by
  induction lines generalizing st with
  | nil =>
    unfold gadLines at h
    simp only [List.foldlM_nil] at h
    injection h with h2
    subst h2
    exact Or.inl ⟨d, hd, rfl, rfl⟩
  | cons L ls ih =>
    unfold gadLines at h ih
    simp only [List.foldlM_cons] at h
    cases hstep : gadStep ig ip st L with
    | error e =>
      rw [hstep] at h
      exact Except.noConfusion h
    | ok st1 =>
      rw [hstep] at h
      replace h : ls.foldlM (gadStep ig ip) st1 = Except.ok st' := h
      rcases ih st1 h with ⟨d0, hget, hsize, hloc⟩ | ⟨L', hmem, s, sz, hq, h0, hl⟩
      · rcases gadStep_provenance ig ip st L st1 hstep n d0 hget with
          ⟨d00, hget0, hsize0, hloc0⟩ | ⟨s, sz, hq, h0, hl⟩
        · exact Or.inl ⟨d00, hget0, hsize0.trans hsize, hloc0.trans hloc⟩
        · exact Or.inr ⟨L, List.mem_cons_self _ _, s, sz, hq, hsize ▸ h0, hloc ▸ hl⟩
      · exact Or.inr ⟨L', List.mem_cons_of_mem _ hmem, s, sz, hq, h0, hl⟩

theorem rowQual_some_inv (L n s : String) (sz : Int)
    (h : rowQual L n = some (s, sz)) :
    ∃ dtype, rowNTS L = some (n, dtype, s) ∧ dtype = "disk" ∧
      pyInt s = Except.ok sz ∧ sz > 10000000 := by
  unfold rowQual at h
  cases hnts : rowNTS L with
  | none =>
    rw [hnts] at h
    exact Option.noConfusion h
  | some triple =>
    obtain ⟨name, dtype, size⟩ := triple
    simp only [hnts] at h
    by_cases hc : name = n ∧ dtype = "disk"
    · rw [if_pos hc] at h
      cases hpi : pyInt size with
      | error e =>
        rw [hpi] at h
        exact Option.noConfusion h
      | ok sz' =>
        simp only [hpi] at h
        by_cases hb : sz' > 10000000
        · rw [if_pos hb] at h
          injection h with h2
          injection h2 with hss hzz
          subst hss
          subst hzz
          refine ⟨dtype, ?_, hc.2, hpi, hb⟩
          rw [hc.1]
        · rw [if_neg hb] at h
          exact Option.noConfusion h
    · rw [if_neg hc] at h
      exact Option.noConfusion h

/-- C8: (a) processing a disk-typed lsblk row whose SIZE parses below
10000000 leaves the state exactly unchanged — the row produces no entry —
and (b) globally, every entry of a mapping returned by
`getAvailableDisks` originates from some disk-typed row of the input whose
parsed SIZE exceeds 10000000; together: a disk row with SIZE below
10000000 never produces an entry. -/
theorem c8_small_disk_theorem :
    (∀ (ig ip : Bool) (st : GadState) (L : String) (nm s : String) (sz : Int),
      rowNTS L = some (nm, "disk", s) → pyInt s = Except.ok sz → sz < 10000000 →
      gadStep ig ip st L = Except.ok st) ∧
    (∀ (input : String) (ig ip : Bool) (m : List (String × Disk)) (n : String) (d : Disk),
      getAvailableDisks input ig ip = Except.ok m → alGet m n = some d →
      ∃ L ∈ pySplitlines input, ∃ s sz, rowQual L n = some (s, sz) ∧
        pyInt s = Except.ok sz ∧ sz > 10000000) := by
  constructor
  · intro ig ip st L nm s sz hnts hpi hlt
    unfold rowNTS at hnts
    cases hN : alGetBy jvalEq (parseRow L) (JVal.str "NAME") with
    | none =>
      rw [hN] at hnts
      exact Option.noConfusion hnts
    | some name =>
      cases hT : alGetBy jvalEq (parseRow L) (JVal.str "TYPE") with
      | none =>
        simp only [hN, hT] at hnts
        exact Option.noConfusion hnts
      | some dtype =>
        cases hS : alGetBy jvalEq (parseRow L) (JVal.str "SIZE") with
        | none =>
          simp only [hN, hT, hS] at hnts
          exact Option.noConfusion hnts
        | some size =>
          simp only [hN, hT, hS, Option.some.injEq, Prod.mk.injEq] at hnts
          obtain ⟨hn1, ht1, hs1⟩ := hnts
          subst hn1
          subst ht1
          subst hs1
          unfold gadStep diskBranch
          simp only [hN, hT, hS, hpi]
          rw [if_pos trivial, if_neg (by omega : ¬sz > 10000000)]
  · intro input ig ip m n d hrun hget
    unfold getAvailableDisks at hrun
    cases hl : gadLines ig ip ⟨[], none⟩ (pySplitlines input) with
    | error e =>
      rw [hl] at hrun
      exact Except.noConfusion hrun
    | ok stf =>
      rw [hl] at hrun
      have h2 : stf.disks = m := by injection hrun
      subst h2
      rcases gadLines_provenance ig ip (pySplitlines input) ⟨[], none⟩ stf hl n d hget with
        ⟨d0, hget0, _, _⟩ | ⟨L, hmem, s, sz, hq, _, _⟩
      · exact Option.noConfusion hget0
      · obtain ⟨dtype, _, _, hpi, hbig⟩ := rowQual_some_inv L n s sz hq
        exact ⟨L, hmem, s, sz, hq, hpi, hbig⟩

/-- A small (5MB) disk row. -/
def rowSmallDisk : String := "NAME=\"sdz\" TYPE=\"disk\" SIZE=\"5000000\""

/-- A qualifying 20MB virtual disk row. -/
def rowVirtualDisk : String := "NAME=\"xvda\" TYPE=\"disk\" SIZE=\"20000000\""

theorem c8_small_disk_witness :
    gadStep true false ⟨[], none⟩ rowSmallDisk = Except.ok ⟨[], none⟩ ∧
    (∃ L ∈ pySplitlines rowVirtualDisk, ∃ s sz, rowQual L "xvda" = some (s, sz) ∧
      pyInt s = Except.ok sz ∧ sz > 10000000) :=
  ⟨c8_small_disk_theorem.1 true false ⟨[], none⟩ rowSmallDisk "sdz" "5000000" 5000000
      rfl rfl (by omega),
   c8_small_disk_theorem.2 rowVirtualDisk true false
      [("xvda", pyDiskInit "xvda" (some DiskTypes.HDD) (JVal.str "virtual")
        (JVal.str "20000000"))]
      "xvda"
      (pyDiskInit "xvda" (some DiskTypes.HDD) (JVal.str "virtual") (JVal.str "20000000"))
      rfl rfl⟩

/-- C10: every disk in a mapping returned by `getAvailableDisks` has
`size = 0`, and its `location` field holds the lsblk SIZE string of the
row that created it (the SIZE value is passed as the fourth positional
argument of `Disk(...)`, which is `location`, so `size` keeps its `0`
default). -/
theorem c10_size_location_theorem :
    ∀ (input : String) (ig ip : Bool) (m : List (String × Disk)) (n : String) (d : Disk),
      getAvailableDisks input ig ip = Except.ok m → alGet m n = some d →
      d.size = 0 ∧ ∃ L ∈ pySplitlines input, ∃ s sz, rowQual L n = some (s, sz) ∧
        d.location = JVal.str s := by
  intro input ig ip m n d hrun hget
  unfold getAvailableDisks at hrun
  cases hl : gadLines ig ip ⟨[], none⟩ (pySplitlines input) with
  | error e =>
    rw [hl] at hrun
    exact Except.noConfusion hrun
  | ok stf =>
    rw [hl] at hrun
    have h2 : stf.disks = m := by injection hrun
    subst h2
    rcases gadLines_provenance ig ip (pySplitlines input) ⟨[], none⟩ stf hl n d hget with
      ⟨d0, hget0, _, _⟩ | ⟨L, hmem, s, sz, hq, h0, hloc⟩
    · exact Option.noConfusion hget0
    · exact ⟨h0, L, hmem, s, sz, hq, hloc⟩

theorem c10_size_location_witness :
    (pyDiskInit "xvda" (some DiskTypes.HDD) (JVal.str "virtual") (JVal.str "20000000")).size
        = 0 ∧
    ∃ L ∈ pySplitlines rowVirtualDisk, ∃ s sz, rowQual L "xvda" = some (s, sz) ∧
      (pyDiskInit "xvda" (some DiskTypes.HDD) (JVal.str "virtual")
        (JVal.str "20000000")).location = JVal.str s :=
  c10_size_location_theorem rowVirtualDisk true false
    [("xvda", pyDiskInit "xvda" (some DiskTypes.HDD) (JVal.str "virtual")
      (JVal.str "20000000"))]
    "xvda"
    (pyDiskInit "xvda" (some DiskTypes.HDD) (JVal.str "virtual") (JVal.str "20000000"))
    rfl rfl

/-! ### C4: OS-disk filtering -/

/-- Whether an lsblk row is a part-typed row carrying a non-empty OS
mountpoint (`/`, `/boot` or `[SWAP]`). -/
def isOSPartRow (L : String) : Bool :=
  match rowNTS L with
  | some (_, dtype, _) =>
    dtype = "part" &&
      (match alGetBy jvalEq (parseRow L) (JVal.str "MOUNTPOINT") with
       | some mp => decide (mp ≠ "") && isOSMountpoint mp
       | none => false)
  | none => false

theorem rowNTS_some_inv (L n t s : String) (h : rowNTS L = some (n, t, s)) :
    alGetBy jvalEq (parseRow L) (JVal.str "NAME") = some n ∧
    alGetBy jvalEq (parseRow L) (JVal.str "TYPE") = some t ∧
    alGetBy jvalEq (parseRow L) (JVal.str "SIZE") = some s := by
  unfold rowNTS at h
  cases hN : alGetBy jvalEq (parseRow L) (JVal.str "NAME") with
  | none =>
    rw [hN] at h
    exact Option.noConfusion h
  | some name =>
    cases hT : alGetBy jvalEq (parseRow L) (JVal.str "TYPE") with
    | none =>
      simp only [hN, hT] at h
      exact Option.noConfusion h
    | some dtype =>
      cases hS : alGetBy jvalEq (parseRow L) (JVal.str "SIZE") with
      | none =>
        simp only [hN, hT, hS] at h
        exact Option.noConfusion h
      | some size =>
        simp only [hN, hT, hS, Option.some.injEq, Prod.mk.injEq] at h
        obtain ⟨h1, h2, h3⟩ := h
        subst h1
        subst h2
        subst h3
        exact ⟨rfl, rfl, rfl⟩

theorem isOSPartRow_inv (L : String) (h : isOSPartRow L = true) :
    ∃ name size mp, rowNTS L = some (name, "part", size) ∧
      alGetBy jvalEq (parseRow L) (JVal.str "MOUNTPOINT") = some mp ∧
      mp ≠ "" ∧ isOSMountpoint mp = true := by
  unfold isOSPartRow at h
  cases hnts : rowNTS L with
  | none =>
    rw [hnts] at h
    exact Bool.noConfusion h
  | some triple =>
    obtain ⟨name, dtype, size⟩ := triple
    simp only [hnts, Bool.and_eq_true, decide_eq_true_eq] at h
    obtain ⟨hpart, hrest⟩ := h
    cases hmp : alGetBy jvalEq (parseRow L) (JVal.str "MOUNTPOINT") with
    | none =>
      rw [hmp] at hrest
      exact Bool.noConfusion hrest
    | some mp =>
      rw [hmp] at hrest
      simp only [Bool.and_eq_true, decide_eq_true_eq] at hrest
      exact ⟨name, size, mp, by rw [hpart], rfl, hrest.1, hrest.2⟩

theorem gadStep_osdelete (st : GadState) (L : String) (d : String)
    (hcd : st.currentDevice = some d) (hin : (alGet st.disks d).isSome = true)
    (hrow : isOSPartRow L = true) :
    gadStep true false st L = Except.ok ⟨alDel st.disks d, none⟩ := by
  obtain ⟨name, size, mp, hnts, hmp, hne, hos⟩ := isOSPartRow_inv L hrow
  obtain ⟨hN, hT, hS⟩ := rowNTS_some_inv L name "part" size hnts
  cases hget : alGet st.disks d with
  | none =>
    rw [hget] at hin
    exact Bool.noConfusion hin
  | some dd =>
    unfold gadStep partBranch partRecord partMountCheck
    simp [hN, hT, hS, hcd, hmp, hget, hne, hos]

theorem gadStep_keeps_absent (ig ip : Bool) (st : GadState) (L : String)
    (st' : GadState) (h : gadStep ig ip st L = Except.ok st') (n : String)
    (habs : alGet st.disks n = none) (hq : rowQual L n = none) :
    alGet st'.disks n = none := by
  cases hlk : alGet st'.disks n with
  | none => rfl
  | some d =>
    rcases gadStep_provenance ig ip st L st' h n d hlk with
      ⟨d0, hget0, _, _⟩ | ⟨s, sz, hq2, _, _⟩
    · rw [habs] at hget0
      exact Option.noConfusion hget0
    · rw [hq] at hq2
      exact Option.noConfusion hq2

theorem gadLines_keeps_absent (ig ip : Bool) (lines : List String)
    (st st' : GadState) (h : gadLines ig ip st lines = Except.ok st') (n : String)
    (habs : alGet st.disks n = none) (hq : ∀ L ∈ lines, rowQual L n = none) :
    alGet st'.disks n = none := by
  cases hlk : alGet st'.disks n with
  | none => rfl
  | some d =>
    rcases gadLines_provenance ig ip lines st st' h n d hlk with
      ⟨d0, hget0, _, _⟩ | ⟨L, hmem, s, sz, hq2, _, _⟩
    · rw [habs] at hget0
      exact Option.noConfusion hget0
    · rw [hq L hmem] at hq2
      exact Option.noConfusion hq2

theorem partRecord_keeps_present (ip : Bool) (st : GadState) (name size : String)
    (st1 : GadState) (h : partRecord ip st name size = Except.ok st1) (n : String)
    (hp : (alGet st.disks n).isSome = true) : (alGet st1.disks n).isSome = true := by
  unfold partRecord at h
  cases hip : ip with
  | false =>
    simp only [hip, Bool.false_eq_true, if_false] at h
    injection h with h2
    subst h2
    exact hp
  | true =>
    simp only [hip, if_true] at h
    cases hlp : lowerPrefixRun name with
    | none =>
      simp only [hlp] at h
      exact Except.noConfusion h
    | some deviceName =>
      simp only [hlp] at h
      cases hlk : alGet st.disks deviceName with
      | none =>
        simp only [hlk] at h
        injection h with h2
        subst h2
        exact hp
      | some disk =>
        simp only [hlk] at h
        by_cases hin2 : (alGetBy jvalEq disk.partitions (JVal.str name)).isSome = true
        · rw [if_pos hin2] at h
          injection h with h2
          subst h2
          exact hp
        · rw [if_neg hin2] at h
          injection h with h2
          subst h2
          change (alGet (alSet st.disks deviceName _) n).isSome = true
          rw [alGet_alSet]
          by_cases hdn : deviceName = n
          · rw [if_pos hdn]
            rfl
          · rw [if_neg hdn]
            exact hp

theorem alGet_alSet_isSome {κ α : Type} [DecidableEq κ] (l : List (κ × α)) (k n : κ)
    (v : α) (hp : (alGet l n).isSome = true) : (alGet (alSet l k v) n).isSome = true := by
  rw [alGet_alSet]
  by_cases h : k = n
  · rw [if_pos h]
    rfl
  · rw [if_neg h]
    exact hp

theorem diskBranch_keeps_present (st : GadState) (info : List (JVal × String))
    (name size : String) (st' : GadState)
    (h : diskBranch st info name size = Except.ok st') (n : String)
    (hp : (alGet st.disks n).isSome = true) : (alGet st'.disks n).isSome = true := by
  unfold diskBranch at h
  cases hsz : pyInt size with
  | error e =>
    simp only [hsz] at h
    exact Except.noConfusion h
  | ok sz =>
    simp only [hsz] at h
    by_cases hbig : sz > 10000000
    · rw [if_pos hbig] at h
      by_cases hvirt : (pyStartsWith name "xvd" || pyStartsWith name "vd") = true
      · rw [if_pos hvirt] at h
        injection h with h2
        subst h2
        exact alGet_alSet_isSome st.disks name n _ hp
      · rw [if_neg hvirt] at h
        cases hrota : alGetBy jvalEq info (JVal.int 3) with
        | none =>
          simp only [hrota] at h
          exact Except.noConfusion h
        | some rotaStr =>
          simp only [hrota] at h
          cases hri : pyInt rotaStr with
          | error e =>
            simp only [hri] at h
            exact Except.noConfusion h
          | ok rotational =>
            simp only [hri] at h
            cases hmodel : alGetBy jvalEq info (JVal.int 4) with
            | none =>
              simp only [hmodel] at h
              exact Except.noConfusion h
            | some model =>
              simp only [hmodel] at h
              by_cases hr0 : rotational = 0
              · rw [if_pos hr0] at h
                injection h with h2
                subst h2
                exact alGet_alSet_isSome st.disks name n _ hp
              · rw [if_neg hr0] at h
                injection h with h2
                subst h2
                exact alGet_alSet_isSome st.disks name n _ hp
    · rw [if_neg hbig] at h
      injection h with h2
      subst h2
      exact hp

theorem gadStep_keeps_present (ig ip : Bool) (st : GadState) (L : String)
    (st' : GadState) (h : gadStep ig ip st L = Except.ok st') (n : String)
    (hnos : isOSPartRow L = false)
    (hp : (alGet st.disks n).isSome = true) : (alGet st'.disks n).isSome = true := by
  unfold gadStep at h
  cases hN : alGetBy jvalEq (parseRow L) (JVal.str "NAME") with
  | none =>
    simp only [hN] at h
    injection h with h2
    subst h2
    exact hp
  | some name =>
    cases hT : alGetBy jvalEq (parseRow L) (JVal.str "TYPE") with
    | none =>
      simp only [hN, hT] at h
      injection h with h2
      subst h2
      exact hp
    | some dtype =>
      cases hS : alGetBy jvalEq (parseRow L) (JVal.str "SIZE") with
      | none =>
        simp only [hN, hT, hS] at h
        injection h with h2
        subst h2
        exact hp
      | some size =>
        simp only [hN, hT, hS] at h
        by_cases hdisk : dtype = "disk"
        · rw [if_pos hdisk] at h
          exact diskBranch_keeps_present st (parseRow L) name size st' h n hp
        · rw [if_neg hdisk] at h
          by_cases hpart : dtype = "part"
          · rw [if_pos hpart] at h
            unfold partBranch at h
            cases hpr : partRecord ip st name size with
            | error e =>
              simp only [hpr] at h
              exact Except.noConfusion h
            | ok st1 =>
              simp only [hpr] at h
              have hp1 := partRecord_keeps_present ip st name size st1 hpr n hp
              unfold partMountCheck at h
              cases hcd : st1.currentDevice with
              | none =>
                simp only [hcd] at h
                injection h with h2
                subst h2
                exact hp1
              | some cur =>
                simp only [hcd] at h
                cases hmp : alGetBy jvalEq (parseRow L) (JVal.str "MOUNTPOINT") with
                | none =>
                  simp only [hmp] at h
                  injection h with h2
                  subst h2
                  exact hp1
                | some mp =>
                  simp only [hmp] at h
                  by_cases hne : mp ≠ ""
                  · rw [if_pos hne] at h
                    by_cases hos2 : (isOSMountpoint mp && ig) = true
                    · exfalso
                      have hosm : isOSMountpoint mp = true :=
                        ((Bool.and_eq_true _ _).mp hos2).1
                      have hcontra : isOSPartRow L = true := by
                        unfold isOSPartRow rowNTS
                        simp only [hN, hT, hS, hmp]
                        simp [hpart, hne, hosm]
                      rw [hnos] at hcontra
                      exact Bool.noConfusion hcontra
                    · rw [if_neg hos2] at h
                      injection h with h2
                      subst h2
                      exact hp1
                  · rw [if_neg hne] at h
                    injection h with h2
                    subst h2
                    exact hp1
          · rw [if_neg hpart] at h
            injection h with h2
            subst h2
            exact hp

theorem gadLines_keeps_present (ig ip : Bool) (lines : List String)
    (st st' : GadState) (h : gadLines ig ip st lines = Except.ok st') (n : String)
    (hnos : ∀ L ∈ lines, isOSPartRow L = false)
    (hp : (alGet st.disks n).isSome = true) : (alGet st'.disks n).isSome = true := by
  induction lines generalizing st with
  | nil =>
    unfold gadLines at h
    simp only [List.foldlM_nil] at h
    injection h with h2
    subst h2
    exact hp
  | cons L ls ih =>
    unfold gadLines at h ih
    simp only [List.foldlM_cons] at h
    cases hstep : gadStep ig ip st L with
    | error e =>
      rw [hstep] at h
      exact Except.noConfusion h
    | ok st1 =>
      rw [hstep] at h
      replace h : ls.foldlM (gadStep ig ip) st1 = Except.ok st' := h
      have hp1 := gadStep_keeps_present ig ip st L st1 hstep n
        (hnos L (List.mem_cons_self _ _)) hp
      exact ih st1 h (fun L2 hm => hnos L2 (List.mem_cons_of_mem _ hm)) hp1

/-- C4: with `ignoreOSDisks=True` (and default `includePartitions=False`):
(1) when a part-typed row with an OS mountpoint (`/`, `/boot`, `[SWAP]`)
is processed while some disk `d` is the current device, the entire disk is
removed and — provided no later disk row re-qualifies the same name — `d`
is absent from the returned mapping; (2) a run whose input contains no
part row with an OS mountpoint never removes a disk: disks present in the
state stay present, so a disk is never removed solely because a partition
carries some other, non-OS mountpoint. -/
theorem c4_os_mountpoint_theorem :
    (∀ (input : String) (pre : List String) (L : String) (post : List String)
      (st : GadState) (d : String) (m : List (String × Disk)),
      pySplitlines input = pre ++ L :: post →
      gadLines true false ⟨[], none⟩ pre = Except.ok st →
      st.currentDevice = some d →
      (alGet st.disks d).isSome = true →
      isOSPartRow L = true →
      (∀ L2 ∈ post, rowQual L2 d = none) →
      getAvailableDisks input true false = Except.ok m →
      alGet m d = none) ∧
    (∀ (lines : List String) (st st' : GadState) (n : String),
      gadLines true false st lines = Except.ok st' →
      (∀ L ∈ lines, isOSPartRow L = false) →
      (alGet st.disks n).isSome = true →
      (alGet st'.disks n).isSome = true) := by
  constructor
  · intro input pre L post st d m hsplit hpre hcd hin hrow hq hrun
    unfold getAvailableDisks at hrun
    rw [hsplit] at hrun
    cases hl : gadLines true false ⟨[], none⟩ (pre ++ L :: post) with
    | error e =>
      rw [hl] at hrun
      exact Except.noConfusion hrun
    | ok stf =>
      rw [hl] at hrun
      have hm : stf.disks = m := by injection hrun
      subst hm
      unfold gadLines at hl hpre
      rw [List.foldlM_append] at hl
      rw [hpre] at hl
      replace hl : (L :: post).foldlM (gadStep true false) st = Except.ok stf := hl
      rw [List.foldlM_cons] at hl
      rw [gadStep_osdelete st L d hcd hin hrow] at hl
      replace hl :
          post.foldlM (gadStep true false) ⟨alDel st.disks d, none⟩ = Except.ok stf := hl
      have habs : alGet (alDel st.disks d) d = none := by
        rw [alGet_alDel, if_pos rfl]
      exact gadLines_keeps_absent true false post ⟨alDel st.disks d, none⟩ stf hl d habs hq
  · intro lines st st' n h hnos hp
    exact gadLines_keeps_present true false lines st st' h n hnos hp

/-- The part row of `xvda1` mounted at `/`. -/
def rowPartRoot : String := "NAME=\"xvda1\" TYPE=\"part\" SIZE=\"100\" MOUNTPOINT=\"/\""

/-- The part row of `xvda1` mounted at the non-OS mountpoint `/data`. -/
def rowPartData : String := "NAME=\"xvda1\" TYPE=\"part\" SIZE=\"100\" MOUNTPOINT=\"/data\""

/-- A dump whose disk row is followed by a part row mounted at `/`. -/
def dumpOSPart : String := rowVirtualDisk ++ "\n" ++ rowPartRoot

/-- The state after processing the `xvda` disk row. -/
def stateAfterXvda : GadState :=
  ⟨[("xvda", pyDiskInit "xvda" (some DiskTypes.HDD) (JVal.str "virtual")
    (JVal.str "20000000"))], some "xvda"⟩

theorem c4_os_mountpoint_witness :
    alGet ([] : List (String × Disk)) "xvda" = none ∧
    (alGet stateAfterXvda.disks "xvda").isSome = true :=
  ⟨c4_os_mountpoint_theorem.1 dumpOSPart [rowVirtualDisk] rowPartRoot [] stateAfterXvda
      "xvda" [] rfl rfl rfl rfl rfl (fun L2 hm => absurd hm (List.not_mem_nil L2)) rfl,
   c4_os_mountpoint_theorem.2 [rowPartData] stateAfterXvda stateAfterXvda "xvda" rfl
      (by
        intro L hm
        rw [List.mem_singleton] at hm
        subst hm
        rfl)
      rfl⟩

/-! ### C3: `parseLogicalDevicesString` keeps only the last controller -/

theorem exceptMapM_last {α β : Type} (f : α → Except PyErr β) (l : List α)
    (ds : List β) (h : l.mapM f = Except.ok ds) (hne : l ≠ []) :
    ∃ front lastc dsf lastd, l = front ++ [lastc] ∧ ds = dsf ++ [lastd] ∧
      front.mapM f = Except.ok dsf ∧ f lastc = Except.ok lastd := by
  induction l generalizing ds with
  | nil => exact absurd rfl hne
  | cons x xs ih =>
    rw [List.mapM_cons] at h
    cases hfx : f x with
    | error e =>
      rw [hfx] at h
      exact Except.noConfusion h
    | ok y =>
      rw [hfx] at h
      cases hxs : xs.mapM f with
      | error e =>
        rw [hxs] at h
        exact Except.noConfusion h
      | ok ys =>
        rw [hxs] at h
        replace h : (y :: ys) = ds := by injection h
        subst h
        cases hxe : xs with
        | nil =>
          subst hxe
          replace hxs : ys = [] := by
            rw [List.mapM_nil] at hxs
            injection hxs with h2
            exact h2.symm
          subst hxs
          exact ⟨[], x, [], y, rfl, rfl, rfl, hfx⟩
        | cons z zs =>
          obtain ⟨front, lastc, dsf, lastd, hl, hd, hmf, hfl⟩ :=
            ih ys (hxe ▸ hxs) (by rw [hxe]; exact List.cons_ne_nil z zs)
          refine ⟨x :: front, lastc, y :: dsf, lastd, ?_, ?_, ?_, hfl⟩
          · rw [hxe] at hl
            rw [hl]
            rfl
          · rw [hd]
            rfl
          · rw [List.mapM_cons, hfx, hmf]
            rfl

/-- The pairwise-distinct-controller-ids condition (per Python `==` on the
ids, which is what dictionary keying uses). -/
def ctrlIdsDistinct (cs : List JVal) : Prop :=
  List.Pairwise
    (fun a b => ∀ x y, ctrlId a = Except.ok x → ctrlId b = Except.ok y →
      jvalEq x y = false) cs

theorem processControllers_ok (cs : List JVal)
    (cd cd' : List (JVal × List (JVal × LogicalDevice)))
    (h : processControllers cs cd = Except.ok cd')
    (hdisj : ∀ c ∈ cs.filter isSuccessController, ∀ i, ctrlId c = Except.ok i →
      alGetBy jvalEq cd i = none)
    (hdist : ctrlIdsDistinct (cs.filter isSuccessController)) :
    ∃ ds, (cs.filter isSuccessController).mapM controllerDevices = Except.ok ds ∧
      cd'.map (fun kv => kv.2) = cd.map (fun kv => kv.2) ++ ds := by
  induction cs generalizing cd with
  | nil =>
    unfold processControllers at h
    replace h : cd = cd' := by injection h
    subst h
    exact ⟨[], by rw [List.filter_nil]; rfl, by simp⟩
  | cons c cs ih =>
    unfold processControllers at h
    cases hstat : statusOk c with
    | error e =>
      rw [hstat] at h
      exact Except.noConfusion h
    | ok success =>
      simp only [hstat] at h
      have hsc : isSuccessController c = success := by
        unfold isSuccessController
        rw [hstat]
      cases success with
      | false =>
        rw [if_neg (Bool.false_ne_true)] at h
        have hfe : (c :: cs).filter isSuccessController = cs.filter isSuccessController := by
          simp [hsc]
        rw [hfe] at hdisj hdist ⊢
        exact ih cd h hdisj hdist
      | true =>
        rw [if_pos rfl] at h
        have hfe : (c :: cs).filter isSuccessController =
            c :: cs.filter isSuccessController := by
          simp [hsc]
        rw [hfe] at hdisj hdist ⊢
        cases hdev : controllerDevices c with
        | error e =>
          simp only [hdev] at h
          exact Except.noConfusion h
        | ok lds =>
          simp only [hdev] at h
          cases hcid : ctrlId c with
          | error e =>
            simp only [hcid] at h
            exact Except.noConfusion h
          | ok cid =>
            simp only [hcid] at h
            by_cases hhash : jvalHashable cid = true
            · rw [if_pos hhash] at h
              unfold ctrlIdsDistinct at hdist
              rw [List.pairwise_cons] at hdist
              have hnone : alGetBy jvalEq cd cid = none :=
                hdisj c (List.mem_cons_self _ _) cid hcid
              rw [alSetBy_append_of_none jvalEq cd cid lds hnone] at h
              have hdisj2 : ∀ c2 ∈ cs.filter isSuccessController, ∀ i,
                  ctrlId c2 = Except.ok i →
                  alGetBy jvalEq (cd ++ [(cid, lds)]) i = none := by
                intro c2 hm i hi
                rw [alGetBy_append, hdisj c2 (List.mem_cons_of_mem _ hm) i hi]
                have : jvalEq cid i = false := hdist.1 c2 hm cid i hcid hi
                simp only [Option.elim, alGetBy, this, if_false]
                rfl
              obtain ⟨ds, hmap, hvals⟩ := ih (cd ++ [(cid, lds)]) h hdisj2 hdist.2
              refine ⟨lds :: ds, ?_, ?_⟩
              · rw [List.mapM_cons, hdev, hmap]
                rfl
              · rw [hvals]
                simp
            · rw [if_neg hhash] at h
              exact Except.noConfusion h

/-- C3: whenever `parseLogicalDevicesString` returns and its JSON holds
two or more controllers with a `Success` command status (with distinct
controller ids), the returned mapping is exactly the one built for the
*last* successful controller — every entry of the result comes from it —
so devices appearing only in the earlier successful controllers are
absent from the result. -/
theorem c3_parseLogical_last_theorem :
    ∀ (j : JVal) (res : List (JVal × LogicalDevice)) (cs : List JVal),
      parseLogicalDevicesString j = Except.ok res →
      lsiControllerList j = Except.ok cs →
      2 ≤ (cs.filter isSuccessController).length →
      ctrlIdsDistinct (cs.filter isSuccessController) →
      ∃ front lastc, cs.filter isSuccessController = front ++ [lastc] ∧ front ≠ [] ∧
        controllerDevices lastc = Except.ok res ∧
        (∀ k, alGetBy jvalEq res k ≠ none →
          ∃ lds, controllerDevices lastc = Except.ok lds ∧ alGetBy jvalEq lds k ≠ none) := by
  intro j res cs h1 h2 hlen hdist
  unfold parseLogicalDevicesString at h1
  unfold lsiControllerList at h2
  cases hgd : jGetDefault j "Controllers" (JVal.arr []) with
  | error e =>
    rw [hgd] at h2
    exact Except.noConfusion h2
  | ok ctrls =>
    simp only [hgd] at h1 h2
    cases hit : pyIter ctrls with
    | error e =>
      simp only [hit] at h2
      exact Except.noConfusion h2
    | ok cs0 =>
      simp only [hit] at h1 h2
      replace h2 : cs0 = cs := by injection h2
      subst h2
      cases hpc : processControllers cs0 [] with
      | error e =>
        simp only [hpc] at h1
        exact Except.noConfusion h1
      | ok controllers =>
        simp only [hpc] at h1
        obtain ⟨ds, hmap, hvals⟩ := processControllers_ok cs0 [] controllers hpc
          (fun c _ i _ => rfl) hdist
        have hne : cs0.filter isSuccessController ≠ [] := by
          intro hnil
          rw [hnil] at hlen
          exact absurd hlen (by simp)
        obtain ⟨front, lastc, dsf, lastd, hl, hd, _, hfl⟩ :=
          exceptMapM_last controllerDevices _ ds hmap hne
        simp only [List.map_nil, List.nil_append] at hvals
        rw [hvals, hd] at h1
        simp only [List.getLast?_concat] at h1
        replace h1 : lastd = res := by injection h1
        subst h1
        have hfront : front ≠ [] := by
          intro hf
          rw [hl, hf] at hlen
          exact absurd hlen (by simp)
        exact ⟨front, lastc, hl, hfront, hfl, fun k hk => ⟨lastd, hfl, hk⟩⟩

/-- The `Response Data` block of a one-device controller whose logical
device is named `nm`. -/
def c3RespData (nm : String) : JVal :=
  JVal.obj [("/c0/v0", JVal.arr [JVal.obj [("Name", JVal.str nm)]]),
            ("VD0 Properties", JVal.obj [("SN", JVal.str "X")]),
            ("PDs for VD 0", JVal.arr [JVal.obj [("DID", JVal.int 5)]])]

/-- Successful controller 0 with device JBODA. -/
def c3CtrlA : JVal :=
  JVal.obj [("Command Status",
              JVal.obj [("Controller", JVal.int 0), ("Status", JVal.str "Success")]),
            ("Response Data", c3RespData "JBODA")]

/-- Successful controller 1 with device JBODB. -/
def c3CtrlB : JVal :=
  JVal.obj [("Command Status",
              JVal.obj [("Controller", JVal.int 1), ("Status", JVal.str "Success")]),
            ("Response Data", c3RespData "JBODB")]

/-- A storcli JSON with two successful controllers. -/
def c3TwoControllers : JVal :=
  JVal.obj [("Controllers", JVal.arr [c3CtrlA, c3CtrlB])]

/-- The logical device of the second (last) controller. -/
def c3DeviceB : LogicalDevice :=
  { vendor := Vendor.lsi,
    properties := [("Name", JVal.str "JBODB"), ("SN", JVal.str "X")],
    physicalDevices := [(JVal.int 5, none)] }

theorem c3_parseLogical_last_witness :
    ∃ front lastc,
      ([c3CtrlA, c3CtrlB].filter isSuccessController) = front ++ [lastc] ∧ front ≠ [] ∧
      controllerDevices lastc = Except.ok [(JVal.int 0, c3DeviceB)] ∧
      (∀ k, alGetBy jvalEq [(JVal.int 0, c3DeviceB)] k ≠ none →
        ∃ lds, controllerDevices lastc = Except.ok lds ∧ alGetBy jvalEq lds k ≠ none) :=
  c3_parseLogical_last_theorem c3TwoControllers [(JVal.int 0, c3DeviceB)]
    [c3CtrlA, c3CtrlB] rfl rfl (by decide)
    (by
      show ctrlIdsDistinct [c3CtrlA, c3CtrlB]
      refine List.Pairwise.cons ?_ (List.Pairwise.cons ?_ List.Pairwise.nil)
      · intro b hb x y hx hy
        rw [List.mem_singleton] at hb
        subst hb
        rw [show ctrlId c3CtrlA = Except.ok (JVal.int 0) from rfl] at hx
        rw [show ctrlId c3CtrlB = Except.ok (JVal.int 1) from rfl] at hy
        injection hx with hx2
        injection hy with hy2
        subst hx2
        subst hy2
        rfl
      · intro b hb
        exact absurd hb (List.not_mem_nil b))
